import Mathlib

/-!
# Kaya nucleus, phase two: exception and system-call dispatch

A shallow embedding of `PhaseTwo/exceptions.c` and of the types of `h/types.h`.

Modelling conventions.

* A `pcb_t *` is an `Option Pid` (`none` is `NULL`); the pcb table is the arena
  `Nucleus.pcb`.
* An `int *` or a `state_t *` is an address `Addr` (`NULL` is `0`).  Memory is typed:
  `Nucleus.intMem` holds the `int` cells (semaphores, the `deviceList` and
  `deviceStatusList` tables, `clockTimer`) and `Nucleus.stateMem` holds the `state_t`
  areas (the old areas written by the hardware and the areas named by SYS5).  Two state
  areas are either the same area or disjoint.
* `unsigned int` is `Nat` with explicit reduction modulo `2 ^ 32` where the code does
  arithmetic on it.  `int` and `cpu_t` are `Int`; the results of SYS4 and SYS7 are reduced
  to the 32-bit two's complement range (`wrap32`), the other additions and subtractions
  (SYS3, SYS8, `terminateProcess`, the process counts) are exact and agree with the code as
  long as no result leaves that range.
* The source does not check the category of a SYS5: an index outside `p_types` names the
  words that the address arithmetic reaches, by the layout of `pcb_t` in `types.h`
  (`specTrapVecOutside`).
* `loadState` (LDST) and `scheduler` never return to their caller.  A handler therefore
  yields a `Flow`: either it returned to its caller, or control left the nucleus code
  (`Flow.gone`) together with the reason (`Exit`).
* The queue links `p_next`/`p_previous` of a pcb are represented by the list a queue is
  (`readyQueue`, `asl a`); the sibling links `p_prev_sib`/`p_nxt_sib` and `p_child` by the
  list of children `pcb_t.p_child`.
-/

namespace Kaya

/-- Index of a pcb in the pcb table. -/
abbrev Pid := Nat

/-- A physical address. -/
abbrev Addr := Nat

/-- The null pointer. -/
def NULL : Addr := 0

/-- Number of registers in a processor state: `STATEREGNUM` of `types.h`. -/
def STATEREGNUM : Nat := 31

/-- Processor state: `state_t` of `types.h`. -/
structure state_t where
  s_asid : Nat
  s_cause : Nat
  s_status : Nat
  s_pc : Nat
  s_reg : Fin 31 → Int

/-- Register alias `s_v0` = `s_reg[1]`. -/
def state_t.s_v0 (s : state_t) : Int := s.s_reg 1

/-- Register alias `s_a0` = `s_reg[3]`. -/
def state_t.s_a0 (s : state_t) : Int := s.s_reg 3

/-- Register alias `s_a1` = `s_reg[4]`. -/
def state_t.s_a1 (s : state_t) : Int := s.s_reg 4

/-- Register alias `s_a2` = `s_reg[5]`. -/
def state_t.s_a2 (s : state_t) : Int := s.s_reg 5

/-- Register alias `s_a3` = `s_reg[6]`. -/
def state_t.s_a3 (s : state_t) : Int := s.s_reg 6

/-- Assignment `s.s_v0 = v`. -/
def state_t.set_v0 (s : state_t) (v : Int) : state_t :=
  { s with s_reg := Function.update s.s_reg 1 v }

/-- Entry of the SYS5 table: `pcb_array` of `types.h`. -/
structure pcb_array where
  oldState : Addr
  newState : Addr

/-- Process control block: `pcb_t` of `types.h`. -/
structure pcb_t where
  p_prnt : Option Pid
  p_child : List Pid
  p_s : state_t
  p_semAdd : Addr
  p_CPUTime : Int
  p_types : Nat → pcb_array

/-- Modelled from the spec: `TRAPTYPES` of the absent `const.h`; the table of a process is
"indexed by trap category ∈ {TLB, ProgramTrap, Syscall≥9}". -/
def TRAPTYPES : Nat := 3

/-- Modelled from the spec: syscall code 1 of the absent `const.h` ("1=create"). -/
def CREATEPROCESS : Int := 1

/-- Modelled from the spec: syscall code 2 of the absent `const.h` ("2=terminate"). -/
def TERMINATEPROCESS : Int := 2

/-- Modelled from the spec: syscall code 3 of the absent `const.h` ("3=signal"). -/
def VERHOGEN : Int := 3

/-- Modelled from the spec: syscall code 4 of the absent `const.h` ("4=wait"). -/
def PASSEREN : Int := 4

/-- Modelled from the spec: syscall code 5 of the absent `const.h`
("5=register-trap-vector"). -/
def SPECTRAPVEC : Int := 5

/-- Modelled from the spec: syscall code 6 of the absent `const.h` ("6=get-cpu-time"). -/
def GETCPUTIME : Int := 6

/-- Modelled from the spec: syscall code 7 of the absent `const.h` ("7=wait-clock"). -/
def WAITCLOCK : Int := 7

/-- Modelled from the spec: syscall code 8 of the absent `const.h` ("8=wait-io"). -/
def WAITIO : Int := 8

/-- The constants of the absent `const.h` and the addresses of the globals of the absent
`initial.c` that `exceptions.c` uses; they are parameters of the model. -/
structure Config where
  KUp : Nat
  TERMINT : Int
  DEVICELISTNUM : Nat
  DEVICENUM : Nat
  OLDSYSCALL : Addr
  OLDTRAP : Addr
  OLDTLB : Addr
  deviceList : Addr
  deviceStatusList : Addr
  clockTimer : Addr

/-- Global state of the nucleus together with the memory the handlers touch. -/
structure Nucleus where
  pcb : Pid → pcb_t
  pcbFree : List Pid
  readyQueue : List Pid
  asl : Addr → List Pid
  intMem : Addr → Int
  stateMem : Addr → state_t
  currentProcess : Option Pid
  processCount : Int
  softBlockCount : Int
  startTOD : Int
  endTOD : Int
  TOD : Int

/-- Why control left the nucleus code. -/
inductive Exit where
  | loadState (s : state_t)
  | scheduler
  | fault
  | outOfFuel

/-- Result of running a piece of nucleus code. -/
inductive Flow where
  | returned (n : Nucleus)
  | gone (e : Exit) (n : Nucleus)

/-- The nucleus state a piece of code leaves behind. -/
def Flow.state : Flow → Nucleus
  | Flow.returned n => n
  | Flow.gone _ n => n

/-- Control did not come back to the caller. -/
def Flow.Gone (f : Flow) : Prop := ∃ e n, f = Flow.gone e n

/-- Sequencing of C statements: the continuation runs only if the first part returned. -/
def Flow.andThen (f : Flow) (k : Nucleus → Flow) : Flow :=
  match f with
  | Flow.returned n => k n
  | Flow.gone e n => Flow.gone e n

/-- Conversion of an `int` register to a pointer. -/
def toAddr (x : Int) : Addr := (x % 2 ^ 32).toNat

/-- Assignment to the fields of the pcb `p`. -/
def Nucleus.setPcb (n : Nucleus) (p : Pid) (f : pcb_t → pcb_t) : Nucleus :=
  { n with pcb := Function.update n.pcb p (f (n.pcb p)) }

/-- Assignment `*a = v` to an `int` cell. -/
def Nucleus.setInt (n : Nucleus) (a : Addr) (v : Int) : Nucleus :=
  { n with intMem := Function.update n.intMem a v }

/-- Assignment `*a = s` to a `state_t` area. -/
def Nucleus.setState (n : Nucleus) (a : Addr) (s : state_t) : Nucleus :=
  { n with stateMem := Function.update n.stateMem a s }

/-- Modelled from the spec: `moveState(src, dst)` between two areas of memory ("copies a
full register snapshot between two locations"). -/
def moveState (src dst : Addr) (n : Nucleus) : Nucleus :=
  n.setState dst (n.stateMem src)

/-- Assignment `r.p_types[t].oldState = a`. -/
def pcb_t.setOldState (r : pcb_t) (t : Nat) (a : Addr) : pcb_t :=
  let e := r.p_types t
  { r with p_types := Function.update r.p_types t { e with oldState := a } }

/-- Assignment `r.p_types[t].newState = a`. -/
def pcb_t.setNewState (r : pcb_t) (t : Nat) (a : Addr) : pcb_t :=
  let e := r.p_types t
  { r with p_types := Function.update r.p_types t { e with newState := a } }

/-- Record of a freshly allocated pcb: every field is null or zero. -/
def blankPcb : pcb_t :=
  { p_prnt := none, p_child := [],
    p_s := { s_asid := 0, s_cause := 0, s_status := 0, s_pc := 0, s_reg := fun _ => 0 },
    p_semAdd := NULL, p_CPUTime := 0, p_types := fun _ => { oldState := NULL, newState := NULL } }

/-- Modelled from the spec: `allocPcb` of the absent `pcb.c` ("allocates/frees process
records"; a table entry "is empty until the process explicitly registers a handler").
Returns `none` when no record is free. -/
def allocPcb (n : Nucleus) : Option (Pid × Nucleus) :=
  match n.pcbFree with
  | [] => none
  | p :: rest =>
    some (p, { n with pcbFree := rest, pcb := Function.update n.pcb p blankPcb })

/-- Modelled from the spec: `freePcb` of the absent `pcb.c` (releases the record "back to
the store"). -/
def freePcb (n : Nucleus) (p : Pid) : Nucleus :=
  { n with pcbFree := p :: n.pcbFree }

/-- Modelled from the spec: `insertProcQ` of the absent `pcb.c` (the ready queue is a
"FIFO of runnable processes"; insertion "appends"). -/
def insertProcQ (q : List Pid) (p : Pid) : List Pid := q ++ [p]

/-- Modelled from the spec: `outProcQ` of the absent `pcb.c` ("remove it from the ready
queue"). -/
def outProcQ (q : List Pid) (p : Pid) : List Pid := q.erase p

/-- Modelled from the spec: `insertChild` of the absent `pcb.c` ("links it as a child of
the caller"). -/
def insertChild (n : Nucleus) (prnt p : Pid) : Nucleus :=
  (n.setPcb p (fun r => { r with p_prnt := some prnt })).setPcb prnt
    (fun r => { r with p_child := p :: r.p_child })

/-- Modelled from the spec: `emptyChild` of the absent `pcb.c` ("has-children"). -/
def emptyChild (n : Nucleus) (p : Pid) : Bool := (n.pcb p).p_child.isEmpty

/-- Modelled from the spec: `removeChild` of the absent `pcb.c` ("remove-child"): unlinks
the first child of `p` and returns it, `none` when `p` has no child. -/
def removeChild (n : Nucleus) (p : Pid) : Option (Pid × Nucleus) :=
  match (n.pcb p).p_child with
  | [] => none
  | c :: rest =>
    some (c, (n.setPcb p (fun r => { r with p_child := rest })).setPcb c
      (fun r => { r with p_prnt := none }))

/-- Modelled from the spec: `outChild` of the absent `pcb.c` ("detach-from-parent"). -/
def outChild (n : Nucleus) (p : Pid) : Nucleus :=
  match (n.pcb p).p_prnt with
  | none => n
  | some q =>
    (n.setPcb q (fun r => { r with p_child := r.p_child.erase p })).setPcb p
      (fun r => { r with p_prnt := none })

/-- Modelled from the spec: `insertBlocked` of the absent `asl.c` ("per-semaphore
blocked-process queues; insert/remove/query by semaphore address", each queue FIFO).  It
links the process at the tail of the queue of `semAdd` and records `semAdd` as its
blocked-on reference `p_semAdd`: in the data model "this reference is non-empty if and only
if the process is linked into that semaphore's blocked queue", and `terminateProcess` reads
`p_semAdd` of every process that `waitForClock` or `waitForIO` has queued. -/
def insertBlocked (n : Nucleus) (semAdd : Addr) (p : Pid) : Nucleus :=
  let n1 := { n with asl := Function.update n.asl semAdd (n.asl semAdd ++ [p]) }
  n1.setPcb p fun r => { r with p_semAdd := semAdd }

/-- Modelled from the spec: `removeBlocked` of the absent `asl.c` ("dequeue the
earliest-queued waiter"); `none` when nobody waits on `semAdd`. -/
def removeBlocked (n : Nucleus) (semAdd : Addr) : Option Pid × Nucleus :=
  match n.asl semAdd with
  | [] => (none, n)
  | p :: rest => (some p, { n with asl := Function.update n.asl semAdd rest })

/-- Modelled from the spec: `outBlocked` of the absent `asl.c` ("remove it from that
semaphore's queue"): removes `p` from the queue of the semaphore `p->p_semAdd`. -/
def outBlocked (n : Nucleus) (p : Pid) : Nucleus :=
  let a := (n.pcb p).p_semAdd
  { n with asl := Function.update n.asl a ((n.asl a).erase p) }

/-- Modelled from the spec: `scheduler` of the absent `scheduler.c`; it "picks the next
ready process and resumes it" and never returns to the handler that invoked it. -/
def scheduler (n : Nucleus) : Flow := Flow.gone Exit.scheduler n

/-- Modelled from the spec: `loadState` (LDST) "installs a snapshot as the live processor
state" and "does not return to its caller". -/
def loadState (s : state_t) (n : Nucleus) : Flow := Flow.gone (Exit.loadState s) n

/-- Statement `loadState(&(currentProcess->p_s))`. -/
def loadCurrent (n : Nucleus) : Flow :=
  match n.currentProcess with
  | none => Flow.gone Exit.fault n
  | some p => loadState (n.pcb p).p_s n

/-- Address `&(deviceList[i][j])` of a cell of `int deviceList[DEVICELISTNUM][DEVICENUM]`. -/
def deviceListAddr (cfg : Config) (i j : Int) : Addr :=
  toAddr (cfg.deviceList + 4 * (i * cfg.DEVICENUM + j))

/-- Address of the cell `deviceStatusList[i][j]`. -/
def deviceStatusAddr (cfg : Config) (i j : Int) : Addr :=
  toAddr (cfg.deviceStatusList + 4 * (i * cfg.DEVICENUM + j))

/-- Value of a 32-bit two's complement `int` (also `cpu_t`) that holds the result `x` of an
addition or a subtraction: the result modulo `2 ^ 32`, in the range from `-2 ^ 31` to
`2 ^ 31 - 1`. -/
def wrap32 (x : Int) : Int := (x + 2147483648) % 4294967296 - 2147483648

/-- A handler that dereferences `currentProcess` while it is `NULL` faults. -/
def withCurrent (n : Nucleus) (k : Pid → Flow) : Flow :=
  match n.currentProcess with
  | none => Flow.gone Exit.fault n
  | some p => k p

/-- The statements of `terminateProcess` that follow the loop over the children. -/
def terminateTail (cfg : Config) (n : Nucleus) (p : Pid) : Nucleus :=
  let n1 :=
    if n.currentProcess = some p then
      { outChild n p with currentProcess := none }
    else if (n.pcb p).p_semAdd ≠ NULL then
      let n2 := outBlocked n p
      let a := (n2.pcb p).p_semAdd
      if deviceListAddr cfg 0 0 < a ∧ a < deviceListAddr cfg cfg.DEVICELISTNUM cfg.DEVICENUM then
        { n2 with softBlockCount := n2.softBlockCount - 1 }
      else
        n2.setInt a (n2.intMem a + 1)
    else
      { n with readyQueue := outProcQ n.readyQueue p }
  let n3 := freePcb n1 p
  { n3 with processCount := n3.processCount - 1 }

/-- SYS2, `terminateProcess(p)`: one unit of fuel is spent per call and per iteration of
the loop `while(!emptyChild(p)) terminateProcess(removeChild(p))`; `none` means that the
fuel ran out. -/
def terminateProcess (cfg : Config) : Nat → Nucleus → Pid → Option Nucleus
  | 0, _, _ => none
  | fuel + 1, n, p =>
    if emptyChild n p then some (terminateTail cfg n p)
    else
      match removeChild n p with
      | none => none
      | some (c, n1) =>
        match terminateProcess cfg fuel n1 c with
        | none => none
        | some n2 => terminateProcess cfg fuel n2 p

/-- A call `terminateProcess(p);` as a statement of a handler. -/
def terminateProcessFlow (cfg : Config) (fuel : Nat) (n : Nucleus) (p : Pid) : Flow :=
  match terminateProcess cfg fuel n p with
  | none => Flow.gone Exit.outOfFuel n
  | some n1 => Flow.returned n1

/-- Helper `passUpOrDie(type, oldState)`.  Its three callers pass the constants 0, 1 and 2;
for any other `type` the index is outside `p_types`, and the model stops with `fault`. -/
def passUpOrDie (cfg : Config) (fuel : Nat) (type : Int) (oldState : Addr) (n : Nucleus) :
    Flow :=
  withCurrent n fun p =>
    if type < 0 ∨ (TRAPTYPES : Int) ≤ type then Flow.gone Exit.fault n
    else if ((n.pcb p).p_types type.toNat).newState = NULL then
      (terminateProcessFlow cfg fuel n p).andThen fun n1 =>
        scheduler { n1 with currentProcess := none }
    else
      let n1 := moveState oldState ((n.pcb p).p_types type.toNat).oldState n
      let n2 := n1.setPcb p fun r =>
        { r with p_s := n1.stateMem ((n1.pcb p).p_types type.toNat).newState }
      loadCurrent n2

/-- TLB exception handler `tlbHandler()`. -/
def tlbHandler (cfg : Config) (fuel : Nat) (n : Nucleus) : Flow :=
  passUpOrDie cfg fuel 0 cfg.OLDTLB n

/-- Program trap handler `programTrapHandler()`. -/
def programTrapHandler (cfg : Config) (fuel : Nat) (n : Nucleus) : Flow :=
  passUpOrDie cfg fuel 1 cfg.OLDTRAP n

/-- SYS1, `createProcess(statep)`. -/
def createProcess (statep : Addr) (n : Nucleus) : Flow :=
  withCurrent n fun cur =>
    (match allocPcb n with
      | none => Flow.returned (n.setPcb cur fun r => { r with p_s := r.p_s.set_v0 (-1) })
      | some (newProcess, n1) =>
        let n2 := { n1 with processCount := n1.processCount + 1 }
        let n3 := n2.setPcb newProcess fun r => { r with p_s := n2.stateMem statep }
        let n4 := insertChild n3 cur newProcess
        let n5 := { n4 with readyQueue := insertProcQ n4.readyQueue newProcess }
        Flow.returned (n5.setPcb cur fun r => { r with p_s := r.p_s.set_v0 0 })).andThen
      loadCurrent

/-- SYS3, `verhogen(semaddr)`. -/
def verhogen (semaddr : Addr) (n : Nucleus) : Flow :=
  let n1 := n.setInt semaddr (n.intMem semaddr + 1)
  let r := removeBlocked n1 semaddr
  let n3 :=
    match r.1 with
    | some p =>
      let n2 := r.2.setPcb p fun b => { b with p_semAdd := NULL }
      { n2 with readyQueue := insertProcQ n2.readyQueue p }
    | none => r.2
  loadCurrent n3

/-- SYS4, `passeren(semaddr)`.  The counter is an `int` and `p_CPUTime` a `cpu_t`, both
32 bits wide. -/
def passeren (semaddr : Addr) (n : Nucleus) : Flow :=
  let n1 := n.setInt semaddr (wrap32 (n.intMem semaddr - 1))
  (if n1.intMem semaddr < 0 then
    withCurrent n1 fun p =>
      let n2 := insertBlocked n1 semaddr p
      let n3 := n2.setPcb p fun r => { r with p_semAdd := semaddr }
      let n4 := { n3 with endTOD := n3.TOD }
      let n5 := n4.setPcb p fun r =>
        { r with p_CPUTime := wrap32 (r.p_CPUTime + (n4.endTOD - n4.startTOD)) }
      scheduler { n5 with currentProcess := none }
  else Flow.returned n1).andThen loadCurrent

/-- Position of `p_types[k].oldState` in a pcb, in 32-bit words from the start of `pcb_t`
as `types.h` lays it out: six pointers (words 0 to 5), then `p_s` (words 6 to 40:
`s_asid`, `s_cause`, `s_status`, `s_pc`, `s_reg[0]` to `s_reg[30]`), `p_semAdd` (word 41),
`p_CPUTime` (word 42) and the table `p_types`, two words per entry, from word 43 on. -/
def oldStateWord (k : Int) : Int := 43 + 2 * k

/-- Position of `p_types[k].newState` in a pcb, in 32-bit words from its start. -/
def newStateWord (k : Int) : Int := 44 + 2 * k

/-- The word `w` of a pcb read as a pointer, for the words 7 to 42 (`s_cause` to
`p_CPUTime`); `none` for the words this model does not hold as numbers. -/
def pcb_t.word (r : pcb_t) (w : Int) : Option Addr :=
  if w = 7 then some r.p_s.s_cause
  else if w = 8 then some r.p_s.s_status
  else if w = 9 then some r.p_s.s_pc
  else if 10 ≤ w ∧ w ≤ 40 then some (toAddr (r.p_s.s_reg (Fin.ofNat (w - 10).toNat)))
  else if w = 41 then some r.p_semAdd
  else if w = 42 then some (toAddr r.p_CPUTime)
  else none

/-- The pointer `v` stored in the word `w` of a pcb, for the words 7 to 42. -/
def pcb_t.setWord (r : pcb_t) (w : Int) (v : Addr) : pcb_t :=
  if w = 7 then { r with p_s := { r.p_s with s_cause := v } }
  else if w = 8 then { r with p_s := { r.p_s with s_status := v } }
  else if w = 9 then { r with p_s := { r.p_s with s_pc := v } }
  else if 10 ≤ w ∧ w ≤ 40 then
    { r with p_s := { r.p_s with
        s_reg := Function.update r.p_s.s_reg (Fin.ofNat (w - 10).toNat) (wrap32 v) } }
  else if w = 41 then { r with p_semAdd := v }
  else if w = 42 then { r with p_CPUTime := wrap32 v }
  else r

/-- SYS5 with a `type` that is not an index of `p_types`.  The source does not check
`type` (`a1` of the request, as it comes): `currentProcess->p_types[type]` then names the
two words that the address arithmetic reaches.  For `type` from -18 to -1 these are fields
of `p_s`, `p_semAdd` or `p_CPUTime` of the same pcb, and the statements of `specTrapVec`
read and write them; every other `type` reaches the queue and tree pointers or memory
beyond the pcb, which this model does not describe: there the model stops with `fault`,
and no theorem speaks about it. -/
def specTrapVecOutside (cfg : Config) (fuel : Nat) (type : Int) (oldP newP : Addr)
    (n : Nucleus) (p : Pid) : Flow :=
  match (n.pcb p).word (newStateWord type) with
  | none => Flow.gone Exit.fault n
  | some v =>
    if v ≠ NULL then
      (terminateProcessFlow cfg fuel n p).andThen scheduler
    else
      let n1 := n.setPcb p fun r => r.setWord (oldStateWord type) oldP
      let n2 := n1.setPcb p fun r => r.setWord (newStateWord type) newP
      loadCurrent n2

/-- SYS5, `specTrapVec(type, oldP, newP)`. -/
def specTrapVec (cfg : Config) (fuel : Nat) (type : Int) (oldP newP : Addr) (n : Nucleus) :
    Flow :=
  withCurrent n fun p =>
    if type < 0 ∨ (TRAPTYPES : Int) ≤ type then specTrapVecOutside cfg fuel type oldP newP n p
    else if ((n.pcb p).p_types type.toNat).newState ≠ NULL then
      (terminateProcessFlow cfg fuel n p).andThen scheduler
    else
      let n1 := n.setPcb p fun r => r.setOldState type.toNat oldP
      let n2 := n1.setPcb p fun r => r.setNewState type.toNat newP
      loadCurrent n2

/-- SYS6, `getCPUTime()`. -/
def getCPUTime (n : Nucleus) : Flow :=
  withCurrent n fun p =>
    loadCurrent (n.setPcb p fun r => { r with p_s := r.p_s.set_v0 r.p_CPUTime })

/-- SYS7, `waitForClock()`.  The counter `clockTimer` is an `int` and `p_CPUTime` a
`cpu_t`, both 32 bits wide. -/
def waitForClock (cfg : Config) (n : Nucleus) : Flow :=
  let n1 := n.setInt cfg.clockTimer (wrap32 (n.intMem cfg.clockTimer - 1))
  (if n1.intMem cfg.clockTimer < 0 then
    withCurrent n1 fun p =>
      let n2 := insertBlocked n1 cfg.clockTimer p
      let n3 := { n2 with endTOD := n2.TOD }
      let n4 := n3.setPcb p fun r =>
        { r with p_CPUTime := wrap32 (r.p_CPUTime + (n3.endTOD - n3.startTOD)) }
      let n5 := { n4 with softBlockCount := n4.softBlockCount + 1 }
      scheduler { n5 with currentProcess := none }
  else Flow.returned n1).andThen loadCurrent

/-- Row of `deviceList` that `waitForIO` selects for an interrupt line. -/
def deviceRow (cfg : Config) (intlNo waitForTermRead : Int) : Int :=
  if intlNo = cfg.TERMINT then
    if waitForTermRead = 0 then intlNo - 2 else intlNo - 3
  else intlNo - 3

/-- SYS8, `waitForIO(intlNo, dnum, waitForTermRead)`. -/
def waitForIO (cfg : Config) (intlNo dnum waitForTermRead : Int) (n : Nucleus) : Flow :=
  let row := deviceRow cfg intlNo waitForTermRead
  let sem := deviceListAddr cfg row dnum
  let n1 := n.setInt sem (n.intMem sem - 1)
  (if n1.intMem sem < 0 then
    withCurrent n1 fun p =>
      let n2 := insertBlocked n1 sem p
      let n3 := { n2 with endTOD := n2.TOD }
      let n4 := n3.setPcb p fun r =>
        { r with p_CPUTime := r.p_CPUTime + (n3.endTOD - n3.startTOD) }
      let n5 := { n4 with currentProcess := none }
      scheduler { n5 with softBlockCount := n5.softBlockCount + 1 }
  else Flow.returned n1).andThen fun m =>
    withCurrent m fun p =>
      loadCurrent (m.setPcb p fun r =>
        { r with p_s := r.p_s.set_v0 (m.intMem (deviceStatusAddr cfg row dnum)) })

/-- The first two statements of `syscallHandler`: the old syscall area is copied into the
saved state of the current process and the saved program counter is advanced. -/
def syscallEntry (cfg : Config) (n : Nucleus) (p : Pid) : Nucleus :=
  let n1 := n.setPcb p fun r => { r with p_s := n.stateMem cfg.OLDSYSCALL }
  n1.setPcb p fun r => { r with p_s := { r.p_s with s_pc := (r.p_s.s_pc + 4) % 2 ^ 32 } }

/-- The `switch (oldSys->s_a0)` of `syscallHandler`. -/
def syscallSwitch (cfg : Config) (fuel : Nat) (p : Pid) (n : Nucleus) : Flow :=
  let oldSys := n.stateMem cfg.OLDSYSCALL
  if oldSys.s_a0 = CREATEPROCESS then createProcess (toAddr oldSys.s_a1) n
  else if oldSys.s_a0 = TERMINATEPROCESS then
    (terminateProcessFlow cfg fuel n p).andThen scheduler
  else if oldSys.s_a0 = VERHOGEN then verhogen (toAddr oldSys.s_a1) n
  else if oldSys.s_a0 = PASSEREN then passeren (toAddr oldSys.s_a1) n
  else if oldSys.s_a0 = SPECTRAPVEC then
    specTrapVec cfg fuel oldSys.s_a1 (toAddr oldSys.s_a2) (toAddr oldSys.s_a3) n
  else if oldSys.s_a0 = GETCPUTIME then getCPUTime n
  else if oldSys.s_a0 = WAITCLOCK then waitForClock cfg n
  else if oldSys.s_a0 = WAITIO then
    waitForIO cfg oldSys.s_a1 oldSys.s_a2 oldSys.s_a3 n
  else Flow.returned n

/-- The two statements of `syscallHandler` that turn a syscall 1-8 requested in user mode
into a program trap: the cause of the old syscall area is set to a privileged
instruction, `oldSys->s_cause | (10 << 2)`, and the area is copied into the old program
trap area. -/
def raiseReserved (cfg : Config) (n : Nucleus) : Nucleus :=
  let oldSys := n.stateMem cfg.OLDSYSCALL
  let n1 := n.setState cfg.OLDSYSCALL
    { oldSys with s_cause := (oldSys.s_cause ||| (10 <<< 2)) % 2 ^ 32 }
  moveState cfg.OLDSYSCALL cfg.OLDTRAP n1

/-- The body of `syscallHandler` between the entry statements and the final
`passUpOrDie(2, oldSys)`. -/
def syscallBranch (cfg : Config) (fuel : Nat) (p : Pid) (n : Nucleus) : Flow :=
  let kernelMode := (n.stateMem cfg.OLDSYSCALL).s_status &&& cfg.KUp
  let a0 := (n.stateMem cfg.OLDSYSCALL).s_a0
  if kernelMode ≠ 0 then
    if 0 < a0 ∧ a0 ≤ 8 then
      programTrapHandler cfg fuel (raiseReserved cfg n)
    else Flow.returned n
  else
    if 0 < a0 ∧ a0 ≤ 8 then syscallSwitch cfg fuel p n
    else Flow.returned n

/-- Syscall/breakpoint exception handler `syscallHandler()`. -/
def syscallHandler (cfg : Config) (fuel : Nat) (n : Nucleus) : Flow :=
  withCurrent n fun p =>
    (syscallBranch cfg fuel p (syscallEntry cfg n p)).andThen
      (passUpOrDie cfg fuel 2 cfg.OLDSYSCALL)

/-! ## Well-formed states -/

/-- A finite forest of processes in first-child/next-sibling form, the shape of the links
`p_child`/`p_nxt_sib`: `cons p kids rest` is the tree of root `p` whose children are the
forest `kids`, followed by the younger siblings `rest`. -/
inductive Forest where
  | nil
  | cons (p : Pid) (kids : Forest) (rest : Forest)

/-- The roots of the trees of a forest, in sibling order. -/
def Forest.roots : Forest → List Pid
  | Forest.nil => []
  | Forest.cons p _ rest => p :: rest.roots

/-- Every process of a forest. -/
def Forest.nodes : Forest → List Pid
  | Forest.nil => []
  | Forest.cons p kids rest => p :: (kids.nodes ++ rest.nodes)

/-- The pcb table links the processes of the forest as the forest says: the child list of
every node is the list of roots of its forest of children. -/
def Represents (pcb : Pid → pcb_t) : Forest → Prop
  | Forest.nil => True
  | Forest.cons p kids rest =>
    (pcb p).p_child = kids.roots ∧ Represents pcb kids ∧ Represents pcb rest

/-- The process tree under `p` is the finite tree of root `p` and forest of children `F`,
no process occurring twice. -/
structure SubtreeOf (n : Nucleus) (p : Pid) (F : Forest) : Prop where
  children : (n.pcb p).p_child = F.roots
  links : Represents n.pcb F
  nodup : (p :: F.nodes).Nodup

/-- The queue discipline of the data model: a process is in a queue at most once; a process
in the ready queue has an empty `p_semAdd` and is not the current process; a process in the
blocked queue of a semaphore has the address of that semaphore as `p_semAdd`, which is not
null, and is not the current process. -/
structure QueuesOk (n : Nucleus) : Prop where
  readyNodup : n.readyQueue.Nodup
  aslNodup : ∀ a, (n.asl a).Nodup
  readySem : ∀ q, q ∈ n.readyQueue → (n.pcb q).p_semAdd = NULL
  readyCur : ∀ q, q ∈ n.readyQueue → n.currentProcess ≠ some q
  aslSem : ∀ a q, q ∈ n.asl a → (n.pcb q).p_semAdd = a ∧ a ≠ NULL
  aslCur : ∀ a q, q ∈ n.asl a → n.currentProcess ≠ some q

/-- The parent link agrees with the child lists, and no child list holds a process twice. -/
structure TreeOk (n : Nucleus) : Prop where
  parent : ∀ q c, c ∈ (n.pcb q).p_child → (n.pcb c).p_prnt = some q
  childNodup : ∀ q, (n.pcb q).p_child.Nodup

/-- What `terminateProcess(p)` has done once it returns, `S` being the processes of the
subtree of `p`: the state `n1` after the call against the state `n` before it. -/
structure TermPost (n : Nucleus) (p : Pid) (S : List Pid) (n1 : Nucleus) : Prop where
  count : n1.processCount = n.processCount - S.length
  semAdd : ∀ q, (n1.pcb q).p_semAdd = (n.pcb q).p_semAdd
  types : ∀ q, (n1.pcb q).p_types = (n.pcb q).p_types
  saved : ∀ q, (n1.pcb q).p_s = (n.pcb q).p_s
  cpu : ∀ q, (n1.pcb q).p_CPUTime = (n.pcb q).p_CPUTime
  stateMem : n1.stateMem = n.stateMem
  free : n.pcbFree <:+ n1.pcbFree
  readySub : n1.readyQueue.Sublist n.readyQueue
  aslSub : ∀ a, (n1.asl a).Sublist (n.asl a)
  removed : ∀ d, d ∈ S → d ∉ n1.readyQueue ∧ ∀ a, d ∉ n1.asl a
  cur : n1.currentProcess = n.currentProcess ∨ n1.currentProcess = none
  curKeep : ∀ q, q ∉ S → n.currentProcess = some q → n1.currentProcess = some q
  children : ∀ q, q ∉ S → (n1.pcb q).p_child =
    if n.currentProcess = some p ∧ (n.pcb p).p_prnt = some q then (n.pcb q).p_child.erase p
    else (n.pcb q).p_child
  prnt : ∀ q, q ∉ S → (n1.pcb q).p_prnt = (n.pcb q).p_prnt
  childless : ∀ d, d ∈ S → (n1.pcb d).p_child = []

/-! ## Sample states -/

/-- A pcb with the given tree links and semaphore, every other field blank. -/
def exPcb (prnt : Option Pid) (child : List Pid) (sem : Addr) : pcb_t :=
  { blankPcb with p_prnt := prnt, p_child := child, p_semAdd := sem }

/-- A sample configuration. -/
def exConfig : Config :=
  { KUp := 8, TERMINT := 7, DEVICELISTNUM := 6, DEVICENUM := 8, OLDSYSCALL := 1000,
    OLDTRAP := 2000, OLDTLB := 3000, deviceList := 5000, deviceStatusList := 6000,
    clockTimer := 7000 }

/-- A sample state: process 1 is running, its child 2 is ready and its child 3 is blocked
on the semaphore at address 100. -/
def exNucleus : Nucleus :=
  { pcb := fun q =>
      if q = 1 then exPcb none [2, 3] NULL
      else if q = 2 then exPcb (some 1) [] NULL
      else if q = 3 then exPcb (some 1) [] 100
      else blankPcb
    pcbFree := [4, 5]
    readyQueue := [2]
    asl := fun a => if a = 100 then [3] else []
    intMem := fun a => if a = 100 then -1 else 0
    stateMem := fun _ => blankPcb.p_s
    currentProcess := some 1
    processCount := 3
    softBlockCount := 0
    startTOD := 0
    endTOD := 0
    TOD := 10 }

/-- A sample old syscall area: user mode (`KUp` set), request code `a0 = 1`, `v0 = 7`. -/
def exSnapshot : state_t :=
  { s_asid := 0, s_cause := 0, s_status := 8, s_pc := 400,
    s_reg := fun i => if i = 1 then 7 else if i = 3 then 1 else 0 }

/-- The sample state after process 1 has registered, for program traps, the old area 800
and the handler context 900, at a SYS1 requested in user mode. -/
def exTrapNucleus : Nucleus :=
  { exNucleus with
    pcb := Function.update exNucleus.pcb 1
      (((exNucleus.pcb 1).setOldState 1 800).setNewState 1 900)
    stateMem := fun a => if a = 1000 then exSnapshot else blankPcb.p_s }

/-- The sample state at a SYS1 requested in user mode by process 1, which has registered no
handler. -/
def exUserNucleus : Nucleus :=
  { exNucleus with stateMem := fun a => if a = 1000 then exSnapshot else blankPcb.p_s }

/-- The forest of the children of process 1 in `exNucleus`. -/
def exForest : Forest :=
  Forest.cons 2 Forest.nil (Forest.cons 3 Forest.nil Forest.nil)

/-! ## Devices, cause words and semaphore books -/

/-- The exception code of a cause word: bits 2 to 6. -/
def excCode (cause : Nat) : Nat := (cause >>> 2) &&& 31

/-- The bits of a cause word outside the exception code field. -/
def causeRest (cause : Nat) : Nat := cause &&& (4294967295 - (31 <<< 2))

/-- Reference for SYS7 in the words of the spec: "performs a wait (as code 4) on a dedicated
process-wide clock counter, additionally incrementing the soft-blocked counter when it
actually blocks". -/
def waitForClockSpec (cfg : Config) (n : Nucleus) : Flow :=
  match passeren cfg.clockTimer n with
  | Flow.gone Exit.scheduler n1 =>
    Flow.gone Exit.scheduler { n1 with softBlockCount := n1.softBlockCount + 1 }
  | f => f

/-- Number of processes queued on the pseudo-clock semaphore or on a semaphore of the
device table. -/
def softBlockedQueued (cfg : Config) (n : Nucleus) : Nat :=
  (n.asl cfg.clockTimer).length +
    ((List.range cfg.DEVICELISTNUM).map fun i =>
      ((List.range cfg.DEVICENUM).map fun j =>
        (n.asl (deviceListAddr cfg i j)).length).sum).sum

/-- Counter and blocked queue of every semaphore agree: a negative counter has as many
waiters as its magnitude, a non-negative counter has none. -/
def SemConsistent (n : Nucleus) : Prop :=
  ∀ a, (n.intMem a < 0 → ((n.asl a).length : Int) = - n.intMem a) ∧
    (0 ≤ n.intMem a → n.asl a = [])

/-- A sample state: process 1 is running, its child 2 is ready and its child 3 is blocked
on the first device semaphore `deviceList[0][0]`, at address 5000. -/
def exDevNucleus : Nucleus :=
  { pcb := fun q =>
      if q = 1 then exPcb none [2, 3] NULL
      else if q = 2 then exPcb (some 1) [] NULL
      else if q = 3 then exPcb (some 1) [] 5000
      else blankPcb
    pcbFree := [4, 5]
    readyQueue := [2]
    asl := fun a => if a = 5000 then [3] else []
    intMem := fun a => if a = 5000 then -1 else 0
    stateMem := fun _ => blankPcb.p_s
    currentProcess := some 1
    processCount := 3
    softBlockCount := 1
    startTOD := 0
    endTOD := 0
    TOD := 10 }

/-- A sample state: process 1 is running, its child 2 is ready and its child 3 is blocked
on the pseudo-clock semaphore `clockTimer`, at address 7000. -/
def exClockNucleus : Nucleus :=
  { exDevNucleus with
    pcb := fun q =>
      if q = 1 then exPcb none [2, 3] NULL
      else if q = 2 then exPcb (some 1) [] NULL
      else if q = 3 then exPcb (some 1) [] 7000
      else blankPcb
    asl := fun a => if a = 7000 then [3] else []
    intMem := fun a => if a = 7000 then -1 else 0 }

/-- A sample old syscall area of a breakpoint (exception code 9) in user mode with request
code `a0 = 1`. -/
def exBreakSnapshot : state_t := { exSnapshot with s_cause := 9 <<< 2 }

/-- The sample state at that breakpoint. -/
def exBreakNucleus : Nucleus :=
  { exNucleus with stateMem := fun a => if a = 1000 then exBreakSnapshot else blankPcb.p_s }

/-- The forest without the trees whose root is in `S`. -/
def Forest.remove (S : List Pid) : Forest → Forest
  | Forest.nil => Forest.nil
  | Forest.cons c kids rest =>
    if c ∈ S then rest.remove S
    else Forest.cons c (kids.remove S) (rest.remove S)

/-- The forest with the new leaf `q` as first child of the node `cur`. -/
def Forest.addLeaf (cur q : Pid) : Forest → Forest
  | Forest.nil => Forest.nil
  | Forest.cons c kids rest =>
    Forest.cons c
      (if c = cur then Forest.cons q Forest.nil (kids.addLeaf cur q) else kids.addLeaf cur q)
      (rest.addLeaf cur q)

/-- The queue discipline survives a step that only shortens queues, keeps every `p_semAdd`
and keeps or clears `currentProcess`. -/
theorem QueuesOk.shrink {n n' : Nucleus} (hq : QueuesOk n)
    (hr : n'.readyQueue.Sublist n.readyQueue) (ha : ∀ a, (n'.asl a).Sublist (n.asl a))
    (hs : ∀ q, (n'.pcb q).p_semAdd = (n.pcb q).p_semAdd)
    (hc : n'.currentProcess = n.currentProcess ∨ n'.currentProcess = none) : QueuesOk n' := by
  have hcur : ∀ q, n.currentProcess ≠ some q → n'.currentProcess ≠ some q := by
    intro q h
    rcases hc with hc | hc <;> simp [hc, h]
  exact
    { readyNodup := hq.readyNodup.sublist hr
      aslNodup := fun a => (hq.aslNodup a).sublist (ha a)
      readySem := fun q h => by rw [hs]; exact hq.readySem q (hr.subset h)
      readyCur := fun q h => hcur q (hq.readyCur q (hr.subset h))
      aslSem := fun a q h => by rw [hs]; exact hq.aslSem a q ((ha a).subset h)
      aslCur := fun a q h => hcur q (hq.aslCur a q ((ha a).subset h)) }

/-- The statements of `terminateProcess` after the loop, run on a process without
children. -/
theorem terminateTail_post (cfg : Config) (n : Nucleus) (p : Pid)
    (hq : QueuesOk n) (hc : (n.pcb p).p_child = []) :
    TermPost n p [p] (terminateTail cfg n p) := by
  by_cases h1 : n.currentProcess = some p
  · have hr : p ∉ n.readyQueue := fun h => hq.readyCur p h h1
    have ha : ∀ a, p ∉ n.asl a := fun a h => hq.aslCur a p h h1
    cases hp : (n.pcb p).p_prnt with
    | none =>
      constructor <;>
        simp [terminateTail, h1, outChild, hp, freePcb, hr, ha, hc]
      intro q h h2
      exact h h2.symm
    | some q =>
      have e : terminateTail cfg n p =
          { ((n.setPcb q (fun r => { r with p_child := r.p_child.erase p })).setPcb p
              (fun r => { r with p_prnt := none })) with
            currentProcess := none, pcbFree := p :: n.pcbFree,
            processCount := n.processCount - 1 } := by
        simp [terminateTail, h1, outChild, hp, freePcb, Nucleus.setPcb]
      rw [e]
      constructor
      · simp [Nucleus.setPcb]
      · intro r; simp only [Nucleus.setPcb, Function.update_apply]; split_ifs <;> simp_all
      · intro r; simp only [Nucleus.setPcb, Function.update_apply]; split_ifs <;> simp_all
      · intro r; simp only [Nucleus.setPcb, Function.update_apply]; split_ifs <;> simp_all
      · intro r; simp only [Nucleus.setPcb, Function.update_apply]; split_ifs <;> simp_all
      · simp [Nucleus.setPcb]
      · simp [Nucleus.setPcb]
      · simp [Nucleus.setPcb]
      · simp [Nucleus.setPcb]
      · simpa [Nucleus.setPcb] using ⟨hr, ha⟩
      · simp
      · intro r hr1 hr2; simp_all
      · intro r hr1
        simp only [Nucleus.setPcb, Function.update_apply, h1, hp]
        have : r ≠ p := by simpa using hr1
        by_cases hrq : r = q
        · subst hrq; simp [this]
        · have : q ≠ r := fun h => hrq h.symm
          simp [*]
      · intro r hr1
        have : r ≠ p := by simpa using hr1
        simp only [Nucleus.setPcb, Function.update_apply]
        split_ifs <;> simp_all
      · intro d hd
        have : d = p := by simpa using hd
        subst this
        simp only [Nucleus.setPcb, Function.update_apply]
        split_ifs <;> simp_all
  · by_cases h2 : (n.pcb p).p_semAdd = NULL
    · have ha : ∀ a, p ∉ n.asl a := fun a h => by
        have := hq.aslSem a p h
        rw [h2] at this
        exact this.2 this.1.symm
      constructor <;>
        simp [terminateTail, h1, h2, freePcb, ha, hc, outProcQ]
      · exact List.erase_sublist _ _
      · exact hq.readyNodup.not_mem_erase
    · have hr : p ∉ n.readyQueue := fun h => h2 (hq.readySem p h)
      have ha : ∀ a, a ≠ (n.pcb p).p_semAdd → p ∉ n.asl a := fun a hne h =>
        hne (hq.aslSem a p h).1.symm
      have ha2 : p ∉ (n.asl (n.pcb p).p_semAdd).erase p :=
        (hq.aslNodup _).not_mem_erase
      have hsub : ∀ a, (Function.update n.asl (n.pcb p).p_semAdd
          ((n.asl (n.pcb p).p_semAdd).erase p) a).Sublist (n.asl a) := by
        intro a
        simp only [Function.update_apply]
        split_ifs with h
        · exact h ▸ List.erase_sublist _ _
        · exact List.Sublist.refl _
      have hrem : ∀ a, p ∉ Function.update n.asl (n.pcb p).p_semAdd
          ((n.asl (n.pcb p).p_semAdd).erase p) a := by
        intro a
        simp only [Function.update_apply]
        split_ifs with h
        · exact ha2
        · exact ha a h
      by_cases h3 : deviceListAddr cfg 0 0 < (n.pcb p).p_semAdd ∧
          (n.pcb p).p_semAdd < deviceListAddr cfg cfg.DEVICELISTNUM cfg.DEVICENUM
      · constructor <;>
          simp [terminateTail, h1, h2, h3, freePcb, outBlocked, hr, hc, hsub, hrem]
      · constructor <;>
          simp [terminateTail, h1, h2, h3, freePcb, outBlocked, hr, hc, hsub, hrem,
            Nucleus.setInt]

/-- Whether a forest is represented depends only on the child lists of its nodes. -/
theorem Represents.congr {pcb pcb' : Pid → pcb_t} (F : Forest)
    (h : ∀ q, q ∈ F.nodes → (pcb' q).p_child = (pcb q).p_child)
    (hr : Represents pcb F) : Represents pcb' F := by
  induction F with
  | nil => trivial
  | cons c kids rest ihk ihr =>
    obtain ⟨h1, h2, h3⟩ := hr
    refine ⟨?_, ihk ?_ h2, ihr ?_ h3⟩
    · rw [h c (by simp [Forest.nodes])]; exact h1
    · intro q hq; exact h q (by simp [Forest.nodes, hq])
    · intro q hq; exact h q (by simp [Forest.nodes, hq])

/-- Main lemma on `terminateProcess`: on a finite subtree and under the queue discipline
the call returns, for every fuel above the number of descendants, in a state described by
`TermPost`. -/
theorem terminateProcess_post (cfg : Config) (F : Forest) :
    ∀ (n : Nucleus) (p : Pid), SubtreeOf n p F → QueuesOk n →
      ∀ fuel, F.nodes.length + 1 ≤ fuel →
        ∃ n', terminateProcess cfg fuel n p = some n' ∧ TermPost n p (p :: F.nodes) n' := by
  induction F with
  | nil =>
    intro n p hs hq fuel hf
    obtain ⟨f, rfl⟩ : ∃ f, fuel = f + 1 := ⟨fuel - 1, by omega⟩
    have hc : (n.pcb p).p_child = [] := hs.children
    refine ⟨terminateTail cfg n p, ?_, terminateTail_post cfg n p hq hc⟩
    simp [terminateProcess, emptyChild, hc]
  | cons c kids rest ihk ihr =>
    intro n p hs hq fuel hf
    obtain ⟨f, rfl⟩ : ∃ f, fuel = f + 1 := ⟨fuel - 1, by omega⟩
    have hc : (n.pcb p).p_child = c :: rest.roots := hs.children
    obtain ⟨hl1, hl2, hl3⟩ := hs.links
    have hnd := hs.nodup
    simp only [Forest.nodes, List.nodup_cons, List.mem_cons, List.mem_append, not_or,
      List.nodup_append] at hnd
    obtain ⟨⟨hpc, hpk, hpr⟩, ⟨hck, hcr⟩, hkn, hrn, hdis⟩ := hnd
    have hlen : kids.nodes.length + 1 ≤ f ∧ rest.nodes.length + 1 ≤ f := by
      simp only [Forest.nodes, List.length_cons, List.length_append] at hf
      omega
    obtain ⟨n1, hn1⟩ : ∃ n1, n1 = (n.setPcb p (fun r => { r with p_child := rest.roots })).setPcb c
        (fun r => { r with p_prnt := none }) := ⟨_, rfl⟩
    have hrc : removeChild n p = some (c, n1) := by simp [removeChild, hc, hn1]
    have hcp : c ≠ p := fun h => hpc h.symm
    have e1c : ∀ q, q ≠ p → (n1.pcb q).p_child = (n.pcb q).p_child := by
      intro q hqp
      simp only [hn1, Nucleus.setPcb, Function.update_apply]
      split_ifs <;> simp_all
    have e1pc : (n1.pcb p).p_child = rest.roots := by
      simp [hn1, Nucleus.setPcb, Function.update_apply, hpc]
    have e1p : ∀ q, q ≠ c → (n1.pcb q).p_prnt = (n.pcb q).p_prnt := by
      intro q hqc
      simp only [hn1, Nucleus.setPcb, Function.update_apply]
      split_ifs <;> simp_all
    have e1cp : (n1.pcb c).p_prnt = none := by
      simp [hn1, Nucleus.setPcb]
    have e1s : ∀ q, (n1.pcb q).p_semAdd = (n.pcb q).p_semAdd := by
      intro q
      simp only [hn1, Nucleus.setPcb, Function.update_apply]
      split_ifs <;> simp_all
    have e1t : ∀ q, (n1.pcb q).p_types = (n.pcb q).p_types := by
      intro q
      simp only [hn1, Nucleus.setPcb, Function.update_apply]
      split_ifs <;> simp_all
    have e1v : ∀ q, (n1.pcb q).p_s = (n.pcb q).p_s := by
      intro q
      simp only [hn1, Nucleus.setPcb, Function.update_apply]
      split_ifs <;> simp_all
    have e1u : ∀ q, (n1.pcb q).p_CPUTime = (n.pcb q).p_CPUTime := by
      intro q
      simp only [hn1, Nucleus.setPcb, Function.update_apply]
      split_ifs <;> simp_all
    have e1r : n1.readyQueue = n.readyQueue := by simp [hn1, Nucleus.setPcb]
    have e1a : n1.asl = n.asl := by simp [hn1, Nucleus.setPcb]
    have e1k : n1.currentProcess = n.currentProcess := by simp [hn1, Nucleus.setPcb]
    have e1n : n1.processCount = n.processCount := by simp [hn1, Nucleus.setPcb]
    have e1m : n1.stateMem = n.stateMem := by simp [hn1, Nucleus.setPcb]
    have e1f : n1.pcbFree = n.pcbFree := by simp [hn1, Nucleus.setPcb]
    have hq1 : QueuesOk n1 :=
      hq.shrink (by rw [e1r]) (fun a => by rw [e1a]) e1s (Or.inl e1k)
    have hs1 : SubtreeOf n1 c kids :=
      { children := by rw [e1c c hcp]; exact hl1
        links := Represents.congr kids (fun q hqk => e1c q (fun h => hpk (h ▸ hqk))) hl2
        nodup := List.nodup_cons.2 ⟨hck, hkn⟩ }
    obtain ⟨n2, h2, post2⟩ := ihk n1 c hs1 hq1 f hlen.1
    have hq2 : QueuesOk n2 :=
      hq1.shrink post2.readySub post2.aslSub post2.semAdd post2.cur
    have hpS : p ∉ c :: kids.nodes := by
      simp only [List.mem_cons, not_or]; exact ⟨hpc, hpk⟩
    have e2c : ∀ q, q ∉ c :: kids.nodes → (n2.pcb q).p_child = (n1.pcb q).p_child := by
      intro q hqS
      rw [post2.children q hqS, e1cp]
      simp
    have hs2 : SubtreeOf n2 p rest :=
      { children := by rw [e2c p hpS, e1pc]
        links := Represents.congr rest (fun q hqr => by
          have hqS : q ∉ c :: kids.nodes := by
            simp only [List.mem_cons, not_or]
            exact ⟨fun h => hcr (h ▸ hqr), fun h => hdis h hqr⟩
          rw [e2c q hqS]
          exact e1c q (fun h => hpr (h ▸ hqr))) hl3
        nodup := List.nodup_cons.2 ⟨hpr, hrn⟩ }
    obtain ⟨n3, h3, post3⟩ := ihr n2 p hs2 hq2 f hlen.2
    refine ⟨n3, ?_, ?_⟩
    · simp [terminateProcess, emptyChild, hc, hrc, h2, h3]
    · have hcurp : n2.currentProcess = some p ↔ n.currentProcess = some p := by
        constructor
        · intro h
          rcases post2.cur with h' | h'
          · rw [← e1k, ← h']; exact h
          · rw [h'] at h; cases h
        · intro h
          exact post2.curKeep p hpS (e1k.trans h)
      have hprp : (n2.pcb p).p_prnt = (n.pcb p).p_prnt := by
        rw [post2.prnt p hpS, e1p p (fun h => hpc h)]
      have split : ∀ d, d ∈ p :: (Forest.cons c kids rest).nodes →
          d ∈ p :: rest.nodes ∨ (d ∈ c :: kids.nodes ∧ d ∉ p :: rest.nodes) := by
        intro d hd
        simp only [Forest.nodes, List.mem_cons, List.mem_append] at hd
        by_cases hdr : d ∈ p :: rest.nodes
        · exact Or.inl hdr
        · refine Or.inr ⟨?_, hdr⟩
          simp only [List.mem_cons, not_or] at hdr
          simp only [List.mem_cons]
          tauto
      have out : ∀ q, q ∉ p :: (Forest.cons c kids rest).nodes →
          q ∉ p :: rest.nodes ∧ q ∉ c :: kids.nodes ∧ q ≠ p ∧ q ≠ c := by
        intro q hqS
        simp only [Forest.nodes, List.mem_cons, List.mem_append, not_or] at hqS
        simp only [List.mem_cons, not_or]
        tauto
      exact
        { count := by
            rw [post3.count, post2.count, e1n]
            simp only [Forest.nodes, List.length_cons, List.length_append]
            push_cast
            ring
          semAdd := fun q => by rw [post3.semAdd, post2.semAdd, e1s]
          types := fun q => by rw [post3.types, post2.types, e1t]
          saved := fun q => by rw [post3.saved, post2.saved, e1v]
          cpu := fun q => by rw [post3.cpu, post2.cpu, e1u]
          stateMem := by rw [post3.stateMem, post2.stateMem, e1m]
          free := e1f ▸ post2.free.trans post3.free
          readySub := e1r ▸ post3.readySub.trans post2.readySub
          aslSub := fun a => e1a ▸ (post3.aslSub a).trans (post2.aslSub a)
          removed := fun d hd => by
            rcases split d hd with h | ⟨h, _⟩
            · exact post3.removed d h
            · exact ⟨fun hm => (post2.removed d h).1 (post3.readySub.subset hm),
                fun a hm => (post2.removed d h).2 a ((post3.aslSub a).subset hm)⟩
          cur := by
            rcases post3.cur with h | h
            · rcases post2.cur with h' | h'
              · exact Or.inl (h.trans (h'.trans e1k))
              · exact Or.inr (h.trans h')
            · exact Or.inr h
          curKeep := fun q hqS hcur => by
            obtain ⟨ha, hb, _, _⟩ := out q hqS
            exact post3.curKeep q ha (post2.curKeep q hb (e1k.trans hcur))
          children := fun q hqS => by
            obtain ⟨ha, hb, hqp, hqc⟩ := out q hqS
            rw [post3.children q ha, e2c q hb, e1c q hqp, hprp]
            simp only [hcurp]
          prnt := fun q hqS => by
            obtain ⟨ha, hb, hqp, hqc⟩ := out q hqS
            rw [post3.prnt q ha, post2.prnt q hb, e1p q hqc]
          childless := fun d hd => by
            rcases split d hd with h | ⟨h, hn⟩
            · exact post3.childless d h
            · rw [post3.children d hn, post2.childless d h]
              simp }

/-- Every node of a represented forest is a root of it or is in the child list of one of
its nodes. -/
theorem Represents.parent_mem {pcb : Pid → pcb_t} (F : Forest) (hr : Represents pcb F) :
    ∀ d, d ∈ F.nodes → d ∈ F.roots ∨ ∃ q, q ∈ F.nodes ∧ d ∈ (pcb q).p_child := by
  induction F with
  | nil => intro d hd; simp [Forest.nodes] at hd
  | cons c kids rest ihk ihr =>
    obtain ⟨h1, h2, h3⟩ := hr
    intro d hd
    simp only [Forest.nodes, List.mem_cons, List.mem_append] at hd
    rcases hd with rfl | hd | hd
    · exact Or.inl (by simp [Forest.roots])
    · refine Or.inr ?_
      rcases ihk h2 d hd with h | ⟨q, hq, hm⟩
      · exact ⟨c, by simp [Forest.nodes], h1 ▸ h⟩
      · exact ⟨q, by simp [Forest.nodes, hq], hm⟩
    · rcases ihr h3 d hd with h | ⟨q, hq, hm⟩
      · exact Or.inl (by simp [Forest.roots, h])
      · exact Or.inr ⟨q, by simp [Forest.nodes, hq], hm⟩

/-- Code after a call that does not return is not run. -/
theorem Flow.Gone.andThen_eq {f : Flow} (h : f.Gone) (k : Nucleus → Flow) :
    f.andThen k = f := by
  obtain ⟨e, n, rfl⟩ := h
  rfl

/-- A sequence whose last part never returns never returns. -/
theorem Flow.gone_andThen (f : Flow) (k : Nucleus → Flow) (h : ∀ m, (k m).Gone) :
    (f.andThen k).Gone := by
  cases f with
  | returned n => exact h n
  | gone e n => exact ⟨e, n, rfl⟩

/-- The statement `loadState(&(currentProcess->p_s))` never returns. -/
theorem loadCurrent_gone (n : Nucleus) : (loadCurrent n).Gone := by
  unfold loadCurrent
  cases n.currentProcess <;> exact ⟨_, _, rfl⟩

/-- A handler that never returns once it holds the current process never returns. -/
theorem withCurrent_gone (n : Nucleus) (k : Pid → Flow) (h : ∀ p, (k p).Gone) :
    (withCurrent n k).Gone := by
  unfold withCurrent
  cases n.currentProcess with
  | none => exact ⟨_, _, rfl⟩
  | some p => exact h p

/-- The scheduler never returns. -/
theorem scheduler_gone (n : Nucleus) : (scheduler n).Gone := ⟨_, _, rfl⟩

/-- The helper `passUpOrDie` never returns. -/
theorem passUpOrDie_gone (cfg : Config) (fuel : Nat) (t : Int) (a : Addr) (n : Nucleus) :
    (passUpOrDie cfg fuel t a n).Gone := by
  unfold passUpOrDie
  refine withCurrent_gone _ _ fun p => ?_
  split_ifs
  · exact ⟨_, _, rfl⟩
  · exact Flow.gone_andThen _ _ fun _ => scheduler_gone _
  · exact loadCurrent_gone _

/-- SYS1 never returns. -/
theorem createProcess_gone (statep : Addr) (n : Nucleus) : (createProcess statep n).Gone :=
  withCurrent_gone _ _ fun _ => Flow.gone_andThen _ _ loadCurrent_gone

/-- SYS3 never returns. -/
theorem verhogen_gone (a : Addr) (n : Nucleus) : (verhogen a n).Gone :=
  loadCurrent_gone _

/-- SYS4 never returns. -/
theorem passeren_gone (a : Addr) (n : Nucleus) : (passeren a n).Gone :=
  Flow.gone_andThen _ _ loadCurrent_gone

/-- SYS5 with a category outside the table never returns. -/
theorem specTrapVecOutside_gone (cfg : Config) (fuel : Nat) (t : Int) (a b : Addr)
    (n : Nucleus) (p : Pid) : (specTrapVecOutside cfg fuel t a b n p).Gone := by
  unfold specTrapVecOutside
  cases (n.pcb p).word (newStateWord t) with
  | none => exact ⟨_, _, rfl⟩
  | some v =>
    simp only
    split_ifs
    · exact Flow.gone_andThen _ _ scheduler_gone
    · exact loadCurrent_gone _

/-- SYS5 never returns. -/
theorem specTrapVec_gone (cfg : Config) (fuel : Nat) (t : Int) (a b : Addr) (n : Nucleus) :
    (specTrapVec cfg fuel t a b n).Gone := by
  unfold specTrapVec
  refine withCurrent_gone _ _ fun p => ?_
  split_ifs
  · exact specTrapVecOutside_gone cfg fuel t a b n p
  · exact Flow.gone_andThen _ _ scheduler_gone
  · exact loadCurrent_gone _

/-- SYS6 never returns. -/
theorem getCPUTime_gone (n : Nucleus) : (getCPUTime n).Gone :=
  withCurrent_gone _ _ fun _ => loadCurrent_gone _

/-- SYS7 never returns. -/
theorem waitForClock_gone (cfg : Config) (n : Nucleus) : (waitForClock cfg n).Gone :=
  Flow.gone_andThen _ _ loadCurrent_gone

/-- SYS8 never returns. -/
theorem waitForIO_gone (cfg : Config) (a b c : Int) (n : Nucleus) :
    ( waitForIO cfg a b c n).Gone :=
  Flow.gone_andThen _ _ fun _ => withCurrent_gone _ _ fun _ => loadCurrent_gone _

/-- Every case of the switch of `syscallHandler` is taken by a handler that never returns,
when the request code is in 1..8. -/
theorem syscallSwitch_gone (cfg : Config) (fuel : Nat) (p : Pid) (n : Nucleus)
    (h : 0 < (n.stateMem cfg.OLDSYSCALL).s_a0 ∧ (n.stateMem cfg.OLDSYSCALL).s_a0 ≤ 8) :
    (syscallSwitch cfg fuel p n).Gone := by
  unfold syscallSwitch
  simp only [CREATEPROCESS, TERMINATEPROCESS, VERHOGEN, PASSEREN, SPECTRAPVEC, GETCPUTIME,
    WAITCLOCK, WAITIO]
  split_ifs
  · exact createProcess_gone _ _
  · exact Flow.gone_andThen _ _ scheduler_gone
  · exact verhogen_gone _ _
  · exact passeren_gone _ _
  · exact specTrapVec_gone _ _ _ _ _ _
  · exact getCPUTime_gone _
  · exact waitForClock_gone _ _
  · exact waitForIO_gone _ _ _ _ _
  · omega

/-- The entry statements of `syscallHandler` keep the process tree. -/
theorem syscallEntry_subtree (cfg : Config) (n : Nucleus) (p : Pid) (F : Forest)
    (hs : SubtreeOf n p F) : SubtreeOf (syscallEntry cfg n p) p F := by
  have e : ∀ q, ((syscallEntry cfg n p).pcb q).p_child = (n.pcb q).p_child := by
    intro q
    simp only [syscallEntry, Nucleus.setPcb, Function.update_apply]
    split_ifs <;> simp_all
  exact
    { children := by rw [e]; exact hs.children
      links := Represents.congr F (fun q _ => e q) hs.links
      nodup := hs.nodup }

/-- The entry statements of `syscallHandler` keep the queue discipline. -/
theorem syscallEntry_queuesOk (cfg : Config) (n : Nucleus) (p : Pid)
    (hq : QueuesOk n) : QueuesOk (syscallEntry cfg n p) := by
  refine hq.shrink (List.Sublist.refl _) (fun a => List.Sublist.refl _) ?_ (Or.inl rfl)
  intro q
  simp only [syscallEntry, Nucleus.setPcb, Function.update_apply]
  split_ifs <;> simp_all

/-- The sample state keeps the queue discipline. -/
theorem exNucleus_queuesOk : QueuesOk exNucleus := by
  constructor
  · simp [exNucleus]
  · intro a; simp only [exNucleus]; split_ifs <;> simp
  · intro q hq
    have : q = 2 := by simpa [exNucleus] using hq
    subst this; rfl
  · intro q hq
    have : q = 2 := by simpa [exNucleus] using hq
    subst this; simp [exNucleus]
  · intro a q hq
    by_cases ha : a = 100
    · subst ha
      have : q = 3 := by simpa [exNucleus] using hq
      subst this; simp [exNucleus, exPcb, NULL]
    · simp [exNucleus, ha] at hq
  · intro a q hq
    by_cases ha : a = 100
    · subst ha
      have : q = 3 := by simpa [exNucleus] using hq
      subst this; simp [exNucleus]
    · simp [exNucleus, ha] at hq

/-- The parent links of the sample state agree with its child lists. -/
theorem exNucleus_treeOk : TreeOk exNucleus := by
  constructor
  · intro q c hc
    by_cases h1 : q = 1
    · subst h1
      have : c = 2 ∨ c = 3 := by simpa [exNucleus, exPcb] using hc
      rcases this with rfl | rfl <;> simp [exNucleus, exPcb]
    · by_cases h2 : q = 2
      · subst h2; simp [exNucleus, exPcb] at hc
      · by_cases h3 : q = 3
        · subst h3; simp [exNucleus, exPcb] at hc
        · simp [exNucleus, h1, h2, h3, blankPcb] at hc
  · intro q; simp only [exNucleus]; split_ifs <;> simp [exPcb, blankPcb]

/-- The tree under process 1 in the sample state. -/
theorem exNucleus_subtree : SubtreeOf exNucleus 1 exForest := by
  constructor
  · rfl
  · simp [exForest, Represents, exNucleus, exPcb, Forest.roots]
  · simp [exForest, Forest.nodes]

/-- The tree under process 1 in the sample state with a registered handler. -/
theorem exTrapNucleus_subtree : SubtreeOf exTrapNucleus 1 exForest := by
  have e : ∀ q, (exTrapNucleus.pcb q).p_child = (exNucleus.pcb q).p_child := by
    intro q
    simp only [exTrapNucleus, Function.update_apply, pcb_t.setOldState, pcb_t.setNewState]
    split_ifs with h
    · rw [h]
    · rfl
  exact
    { children := by rw [e]; exact exNucleus_subtree.children
      links := Represents.congr exForest (fun q _ => e q) exNucleus_subtree.links
      nodup := exNucleus_subtree.nodup }

/-- The sample state with a registered handler keeps the queue discipline. -/
theorem exTrapNucleus_queuesOk : QueuesOk exTrapNucleus := by
  refine exNucleus_queuesOk.shrink (List.Sublist.refl _) (fun a => List.Sublist.refl _) ?_
    (Or.inl rfl)
  intro q
  simp only [exTrapNucleus, Function.update_apply, pcb_t.setOldState, pcb_t.setNewState]
  split_ifs with h
  · rw [h]
  · rfl

/-- Process 2 of the sample state has no children. -/
theorem exNucleus_leaf : SubtreeOf exNucleus 2 Forest.nil := by
  constructor
  · rfl
  · trivial
  · simp [Forest.nodes]

/-- C1 (as stated, refuted): in the sample state process 2 is ready, is not the current
process and is a child of process 1; `terminateProcess(2)` returns, decreases
`processCount` by one, and leaves process 2 in the child list of process 1, which is still
alive. -/
theorem terminateProcess_attached_stays :
    SubtreeOf exNucleus 2 Forest.nil ∧ QueuesOk exNucleus ∧ TreeOk exNucleus ∧
      ∃ n1, terminateProcess exConfig 1 exNucleus 2 = some n1 ∧
        n1.processCount = exNucleus.processCount - 1 ∧
        2 ∈ (n1.pcb 1).p_child ∧ 1 ∉ n1.pcbFree := by
  refine ⟨exNucleus_leaf, exNucleus_queuesOk, exNucleus_treeOk, _, rfl, ?_, ?_, ?_⟩
  · rfl
  · decide
  · decide

/-- C1 (amended): for every finite process tree of root `p` with `N` descendants, in a
state that keeps the queue discipline and whose parent links agree with the child lists,
`terminateProcess(p)` returns (for every fuel above `N`), decreases `processCount` by
exactly `N + 1`, and afterwards neither `p` nor any of its descendants is in the ready
queue or in the blocked queue of any semaphore, and no descendant of `p` is in the child
list of any process; `p` itself is in no child list when it was the current process or had
no parent. -/
theorem terminateProcess_subtree (cfg : Config) (n : Nucleus) (p : Pid) (F : Forest)
    (hs : SubtreeOf n p F) (hq : QueuesOk n) (ht : TreeOk n)
    (fuel : Nat) (hf : F.nodes.length + 1 ≤ fuel) :
    ∃ n1, terminateProcess cfg fuel n p = some n1 ∧
      n1.processCount = n.processCount - (F.nodes.length + 1) ∧
      (∀ d, d ∈ p :: F.nodes → d ∉ n1.readyQueue ∧ ∀ a, d ∉ n1.asl a) ∧
      (∀ d, d ∈ F.nodes → ∀ q, d ∉ (n1.pcb q).p_child) ∧
      (n.currentProcess = some p ∨ (n.pcb p).p_prnt = none →
        ∀ q, p ∉ (n1.pcb q).p_child) := by
  obtain ⟨n1, h1, post⟩ := terminateProcess_post cfg F n p hs hq fuel hf
  have key : ∀ d q, d ∈ p :: F.nodes → q ∉ p :: F.nodes → d ∈ (n.pcb q).p_child →
      d = p ∧ (n.pcb p).p_prnt = some q := by
    intro d q hd hqS hm
    have hpr := ht.parent q d hm
    rcases List.mem_cons.1 hd with rfl | hdF
    · exact ⟨rfl, hpr⟩
    · exfalso
      have : ∃ q0, q0 ∈ p :: F.nodes ∧ d ∈ (n.pcb q0).p_child := by
        rcases Represents.parent_mem F hs.links d hdF with h | ⟨q0, h0, hm0⟩
        · exact ⟨p, by simp, hs.children ▸ h⟩
        · exact ⟨q0, by simp [h0], hm0⟩
      obtain ⟨q0, h0, hm0⟩ := this
      have := ht.parent q0 d hm0
      rw [hpr] at this
      cases this
      exact hqS h0
  refine ⟨n1, h1, ?_, post.removed, ?_, ?_⟩
  · rw [post.count]; simp
  · intro d hdF q
    have hdp : d ≠ p := fun h => (List.nodup_cons.1 hs.nodup).1 (h ▸ hdF)
    by_cases hqS : q ∈ p :: F.nodes
    · rw [post.childless q hqS]; simp
    · rw [post.children q hqS]
      have hno : d ∉ (n.pcb q).p_child := fun hm =>
        hdp (key d q (List.mem_cons_of_mem _ hdF) hqS hm).1
      split_ifs
      · exact fun hm => hno (List.mem_of_mem_erase hm)
      · exact hno
  · intro hp q
    by_cases hqS : q ∈ p :: F.nodes
    · rw [post.childless q hqS]; simp
    · rw [post.children q hqS]
      split_ifs with hc
      · exact (ht.childNodup q).not_mem_erase
      · intro hm
        have hpr := (key p q (by simp) hqS hm).2
        rcases hp with hp | hp
        · exact hc ⟨hp, hpr⟩
        · rw [hp] at hpr; cases hpr

/-- C1 (amended) at the sample state: process 1 runs and has the children 2 and 3. -/
theorem terminateProcess_subtree_witness :
    ∃ n1, terminateProcess exConfig 3 exNucleus 1 = some n1 ∧
      n1.processCount = exNucleus.processCount - (exForest.nodes.length + 1) ∧
      (∀ d, d ∈ 1 :: exForest.nodes → d ∉ n1.readyQueue ∧ ∀ a, d ∉ n1.asl a) ∧
      (∀ d, d ∈ exForest.nodes → ∀ q, d ∉ (n1.pcb q).p_child) ∧
      (exNucleus.currentProcess = some 1 ∨ (exNucleus.pcb 1).p_prnt = none →
        ∀ q, 1 ∉ (n1.pcb q).p_child) :=
  terminateProcess_subtree exConfig exNucleus 1 exForest exNucleus_subtree
    exNucleus_queuesOk exNucleus_treeOk 3 (by decide)

/-- C2 (as stated, refuted): in the sample state the running process 1 registers category
0 with a null handler context and is resumed; its second `specTrapVec` for category 0 does
not terminate it: it is resumed again, `processCount` is unchanged, and the entry is
overwritten with the references of the second call. -/
theorem specTrapVec_null_then_overwrites :
    ∃ n1 n2, specTrapVec exConfig 3 0 500 NULL exNucleus =
        Flow.gone (Exit.loadState (exNucleus.pcb 1).p_s) n1 ∧
      ((n1.pcb 1).p_types 0).oldState = 500 ∧ ((n1.pcb 1).p_types 0).newState = NULL ∧
      specTrapVec exConfig 3 0 600 700 n1 = Flow.gone (Exit.loadState (n1.pcb 1).p_s) n2 ∧
      ((n2.pcb 1).p_types 0).oldState = 600 ∧ ((n2.pcb 1).p_types 0).newState = 700 ∧
      n2.currentProcess = some 1 ∧ n2.processCount = exNucleus.processCount := by
  refine ⟨_, _, rfl, ?_, ?_, rfl, ?_, ?_, ?_, ?_⟩ <;> decide

/-- C2 (amended): for every process `p` and category `t` in {0,1,2}: a `specTrapVec` of
the running process `p` on an empty entry with a non-null handler context `newP1` stores
the two references and resumes `p`; and in every later state in which `p` runs with that
entry (its subtree finite, the queue discipline kept), a second `specTrapVec` for `t`,
whatever references it passes, is `terminateProcess` on the current process followed by
the scheduler, and the entry still holds the references of the first call. -/
theorem specTrapVec_twice (cfg : Config) (n : Nucleus) (p : Pid) (t : Int)
    (oldP1 newP1 oldP2 newP2 : Addr) (fuel0 : Nat)
    (ht : 0 ≤ t ∧ t < 3) (hcur : n.currentProcess = some p)
    (hempty : ((n.pcb p).p_types t.toNat).newState = NULL) (hnew : newP1 ≠ NULL) :
    ∃ n1, specTrapVec cfg fuel0 t oldP1 newP1 n = Flow.gone (Exit.loadState (n.pcb p).p_s) n1 ∧
      ((n1.pcb p).p_types t.toNat).oldState = oldP1 ∧
      ((n1.pcb p).p_types t.toNat).newState = newP1 ∧
      ∀ (m : Nucleus) (F : Forest) (fuel : Nat), m.currentProcess = some p →
        ((m.pcb p).p_types t.toNat).oldState = oldP1 →
        ((m.pcb p).p_types t.toNat).newState = newP1 →
        SubtreeOf m p F → QueuesOk m → F.nodes.length + 1 ≤ fuel →
        ∃ m1, terminateProcess cfg fuel m p = some m1 ∧
          specTrapVec cfg fuel t oldP2 newP2 m = Flow.gone Exit.scheduler m1 ∧
          ((m1.pcb p).p_types t.toNat).oldState = oldP1 ∧
          ((m1.pcb p).p_types t.toNat).newState = newP1 ∧
          p ∉ m1.readyQueue ∧ (∀ a, p ∉ m1.asl a) ∧
          m1.processCount = m.processCount - (F.nodes.length + 1) := by
  have hr : ¬ (t < 0 ∨ (TRAPTYPES : Int) ≤ t) := by
    simp only [TRAPTYPES]; omega
  refine ⟨(n.setPcb p fun r => r.setOldState t.toNat oldP1).setPcb p
    fun r => r.setNewState t.toNat newP1, ?_, ?_, ?_, ?_⟩
  · simp [specTrapVec, withCurrent, hcur, hr, hempty, loadCurrent, Nucleus.setPcb, loadState,
      pcb_t.setOldState, pcb_t.setNewState]
  · simp [Nucleus.setPcb, pcb_t.setOldState, pcb_t.setNewState]
  · simp [Nucleus.setPcb, pcb_t.setOldState, pcb_t.setNewState]
  · intro m F fuel hm e3 e2 hs hq hf
    obtain ⟨m1, h1, post⟩ := terminateProcess_post cfg F m p hs hq fuel hf
    refine ⟨m1, h1, ?_, ?_, ?_, ?_, ?_, ?_⟩
    · simp [specTrapVec, withCurrent, hm, hr, e2, hnew, terminateProcessFlow, h1,
        Flow.andThen, scheduler]
    · rw [post.types]; exact e3
    · rw [post.types]; exact e2
    · exact (post.removed p (by simp)).1
    · exact (post.removed p (by simp)).2
    · rw [post.count]; simp

/-- C2 (amended) at the sample states, for category 1: the first call registers the old
area 800 and the handler context 900; the second call, in the state that holds this entry,
terminates process 1 and its two children. -/
theorem specTrapVec_twice_witness :
    (∃ n1, specTrapVec exConfig 0 1 800 900 exNucleus =
        Flow.gone (Exit.loadState (exNucleus.pcb 1).p_s) n1 ∧
      ((n1.pcb 1).p_types 1).oldState = 800 ∧ ((n1.pcb 1).p_types 1).newState = 900) ∧
    ∃ m1, terminateProcess exConfig 3 exTrapNucleus 1 = some m1 ∧
      specTrapVec exConfig 3 1 600 700 exTrapNucleus = Flow.gone Exit.scheduler m1 ∧
      ((m1.pcb 1).p_types 1).oldState = 800 ∧ ((m1.pcb 1).p_types 1).newState = 900 ∧
      1 ∉ m1.readyQueue ∧ (∀ a, 1 ∉ m1.asl a) ∧
      m1.processCount = exTrapNucleus.processCount - (exForest.nodes.length + 1) := by
  obtain ⟨n1, h1, h2, h3, h4⟩ :=
    specTrapVec_twice exConfig exNucleus 1 1 800 900 600 700 0 (by decide) rfl rfl (by decide)
  exact ⟨⟨n1, h1, h2, h3⟩, h4 exTrapNucleus exForest 3 rfl (by decide) (by decide)
    exTrapNucleus_subtree exTrapNucleus_queuesOk (by decide)⟩

/-- C5: `createProcess` run by the current process `cur` (which is not on the free list)
always resumes `cur`; the saved `v0` of `cur` is -1 if and only if `allocPcb` returns no
record, and then nothing else of the nucleus state changes; when `allocPcb` returns the
record `q`, the saved `v0` of `cur` is 0 with its other registers kept, `processCount`
grows by exactly one, the saved state of `q` is the state at `statep`, `q` is a child of
`cur`, and `q` is appended at the tail of the ready queue. -/
theorem createProcess_outcome (statep : Addr) (n : Nucleus) (cur : Pid)
    (hcur : n.currentProcess = some cur) (hfree : cur ∉ n.pcbFree) :
    (∃ n1, createProcess statep n = Flow.gone (Exit.loadState (n1.pcb cur).p_s) n1 ∧
      n1.currentProcess = some cur) ∧
    (((createProcess statep n).state.pcb cur).p_s.s_v0 = -1 ↔ allocPcb n = none) ∧
    (allocPcb n = none →
      (createProcess statep n).state =
        n.setPcb cur fun r => { r with p_s := r.p_s.set_v0 (-1) }) ∧
    (∀ q n0, allocPcb n = some (q, n0) →
      ∃ n1, (createProcess statep n).state = n1 ∧
        (n1.pcb cur).p_s = (n.pcb cur).p_s.set_v0 0 ∧
        n1.processCount = n.processCount + 1 ∧
        (n1.pcb q).p_s = n.stateMem statep ∧
        (n1.pcb q).p_prnt = some cur ∧ q ∈ (n1.pcb cur).p_child ∧
        n1.readyQueue = n.readyQueue ++ [q]) := by
  cases hf : n.pcbFree with
  | nil =>
    have ha : allocPcb n = none := by simp [allocPcb, hf]
    refine ⟨⟨(createProcess statep n).state, ?_, ?_⟩, ?_, ?_, ?_⟩ <;>
      simp [createProcess, withCurrent, hcur, ha, Flow.andThen, loadCurrent, loadState,
        Flow.state, Nucleus.setPcb, state_t.set_v0, state_t.s_v0]
  | cons q rest =>
    have hq : cur ≠ q := by
      intro h; apply hfree; rw [hf, h]; simp
    refine ⟨⟨(createProcess statep n).state, ?_, ?_⟩, ?_, ?_, ?_⟩ <;>
      simp [createProcess, withCurrent, hcur, allocPcb, hf, Flow.andThen, loadCurrent, loadState,
        Flow.state, Nucleus.setPcb, state_t.set_v0, state_t.s_v0, insertChild, insertProcQ,
        hq, Ne.symm hq, Function.update_apply]

/-- C5 at the sample state: the record 4 is allocated. -/
theorem createProcess_outcome_witness :
    1 ∉ exNucleus.pcbFree ∧
    ∃ n1, (createProcess 2000 exNucleus).state = n1 ∧
      (n1.pcb 1).p_s = (exNucleus.pcb 1).p_s.set_v0 0 ∧
      n1.processCount = exNucleus.processCount + 1 ∧
      (n1.pcb 4).p_s = exNucleus.stateMem 2000 ∧
      (n1.pcb 4).p_prnt = some 1 ∧ 4 ∈ (n1.pcb 1).p_child ∧
      n1.readyQueue = exNucleus.readyQueue ++ [4] :=
  ⟨by decide, (createProcess_outcome 2000 exNucleus 1 rfl (by decide)).2.2.2 4 _ rfl⟩

/-- C6: for every category `t` in {0,1,2} and every current process `p` whose entry for
`t` has a null `newState` (the subtree of `p` finite with `N` descendants, the queue
discipline kept), `passUpOrDie` hands over to the scheduler with `currentProcess` empty,
`processCount` decreased by `N + 1`, `p` and all its descendants out of the ready queue
and of every blocked queue, and no state area written; `tlbHandler` is `passUpOrDie` for
category 0 on the old TLB area and `programTrapHandler` is `passUpOrDie` for category 1 on
the old program trap area. -/
theorem passUpOrDie_unregistered_dies (cfg : Config) (n : Nucleus) (p : Pid) (F : Forest)
    (t : Int) (oldState : Addr) (fuel : Nat)
    (ht : 0 ≤ t ∧ t < 3) (hcur : n.currentProcess = some p)
    (hnew : ((n.pcb p).p_types t.toNat).newState = NULL)
    (hs : SubtreeOf n p F) (hq : QueuesOk n) (hf : F.nodes.length + 1 ≤ fuel) :
    (∃ n1, passUpOrDie cfg fuel t oldState n = Flow.gone Exit.scheduler n1 ∧
      n1.currentProcess = none ∧
      n1.processCount = n.processCount - (F.nodes.length + 1) ∧
      (∀ d, d ∈ p :: F.nodes → d ∉ n1.readyQueue ∧ ∀ a, d ∉ n1.asl a) ∧
      n1.stateMem = n.stateMem) ∧
    tlbHandler cfg fuel n = passUpOrDie cfg fuel 0 cfg.OLDTLB n ∧
    programTrapHandler cfg fuel n = passUpOrDie cfg fuel 1 cfg.OLDTRAP n := by
  have hr : ¬ (t < 0 ∨ (TRAPTYPES : Int) ≤ t) := by
    simp only [TRAPTYPES]; omega
  obtain ⟨n1, h1, post⟩ := terminateProcess_post cfg F n p hs hq fuel hf
  refine ⟨⟨{ n1 with currentProcess := none }, ?_, rfl, ?_, post.removed, post.stateMem⟩,
    rfl, rfl⟩
  · simp [passUpOrDie, withCurrent, hcur, hr, hnew, terminateProcessFlow, h1, Flow.andThen,
      scheduler]
  · show n1.processCount = _
    rw [post.count]; simp

/-- C6 at the sample state, for a TLB exception of process 1. -/
theorem passUpOrDie_unregistered_dies_witness :
    ∃ n1, passUpOrDie exConfig 3 0 exConfig.OLDTLB exNucleus = Flow.gone Exit.scheduler n1 ∧
      n1.currentProcess = none ∧
      n1.processCount = exNucleus.processCount - (exForest.nodes.length + 1) ∧
      (∀ d, d ∈ 1 :: exForest.nodes → d ∉ n1.readyQueue ∧ ∀ a, d ∉ n1.asl a) ∧
      n1.stateMem = exNucleus.stateMem :=
  (passUpOrDie_unregistered_dies exConfig exNucleus 1 exForest 0 exConfig.OLDTLB 3
    (by decide) rfl rfl exNucleus_subtree exNucleus_queuesOk (by decide)).1

/-- C7: when the running process `p` calls `specTrapVec` for category 1 on an empty entry
with the save target `X` and a non-null handler context `Y`, the references are stored and
`p` is resumed; and in every later state in which `p` runs with that entry,
`programTrapHandler` copies the old program trap area into `X` unchanged (no other area
changes), makes the contents of `Y` the saved state of `p` and loads it (these are the
contents `Y` had before the trap whenever `X` and `Y` differ), and `p` stays the current
process, `processCount`, the ready queue, every blocked queue and the free list being
unchanged. -/
theorem programTrapHandler_passes_up (cfg : Config) (n : Nucleus) (p : Pid) (X Y : Addr)
    (fuel0 : Nat) (hcur : n.currentProcess = some p)
    (hempty : ((n.pcb p).p_types 1).newState = NULL) (hY : Y ≠ NULL) :
    ∃ n1, specTrapVec cfg fuel0 1 X Y n = Flow.gone (Exit.loadState (n.pcb p).p_s) n1 ∧
      ((n1.pcb p).p_types 1).oldState = X ∧ ((n1.pcb p).p_types 1).newState = Y ∧
      ∀ (m : Nucleus) (fuel : Nat), m.currentProcess = some p →
        ((m.pcb p).p_types 1).oldState = X → ((m.pcb p).p_types 1).newState = Y →
        ∃ m1, programTrapHandler cfg fuel m = Flow.gone (Exit.loadState (m1.stateMem Y)) m1 ∧
          m1.stateMem X = m.stateMem cfg.OLDTRAP ∧
          (∀ a, a ≠ X → m1.stateMem a = m.stateMem a) ∧
          (m1.pcb p).p_s = m1.stateMem Y ∧
          (X ≠ Y → m1.stateMem Y = m.stateMem Y) ∧
          m1.currentProcess = some p ∧ m1.processCount = m.processCount ∧
          m1.readyQueue = m.readyQueue ∧ m1.asl = m.asl ∧ m1.pcbFree = m.pcbFree := by
  refine ⟨(n.setPcb p fun r => r.setOldState 1 X).setPcb p fun r => r.setNewState 1 Y,
    ?_, ?_, ?_, ?_⟩
  · simp [specTrapVec, withCurrent, hcur, TRAPTYPES, hempty, loadCurrent, Nucleus.setPcb,
      loadState, pcb_t.setOldState, pcb_t.setNewState]
  · simp [Nucleus.setPcb, pcb_t.setOldState, pcb_t.setNewState]
  · simp [Nucleus.setPcb, pcb_t.setOldState, pcb_t.setNewState]
  · intro m fuel hm e3 e2
    refine ⟨(programTrapHandler cfg fuel m).state, ?_, ?_, ?_, ?_, ?_, ?_, ?_, ?_, ?_, ?_⟩ <;>
      simp [programTrapHandler, passUpOrDie, withCurrent, hm, TRAPTYPES, e2, e3, hY,
        moveState, Nucleus.setState, Nucleus.setPcb, loadCurrent, loadState, Flow.state]
    · intro a ha; simp [ha]
    · intro h; simp [Ne.symm h]

/-- C7 at the sample state with the old area 800 and the handler context 900. -/
theorem programTrapHandler_passes_up_witness :
    ∃ m1, programTrapHandler exConfig 0 exTrapNucleus =
        Flow.gone (Exit.loadState (m1.stateMem 900)) m1 ∧
      m1.stateMem 800 = exTrapNucleus.stateMem exConfig.OLDTRAP ∧
      m1.currentProcess = some 1 ∧ m1.processCount = exTrapNucleus.processCount := by
  obtain ⟨n1, _, _, _, h⟩ :=
    programTrapHandler_passes_up exConfig exNucleus 1 800 900 0 rfl rfl (by decide)
  obtain ⟨m1, h1, h2, _, _, _, h6, h7, _⟩ := h exTrapNucleus 0 rfl (by decide) (by decide)
  exact ⟨m1, h1, h2, h6, h7⟩

/-- C8 (as stated, refuted): in the sample state process 1 has registered a program trap
handler whose context has `v0 = 0`; a SYS1 requested in user mode with `v0 = 7` in the
snapshot resumes process 1 with the saved `v0` equal to 0, not 7. -/
theorem syscallHandler_user_counter :
    (exTrapNucleus.stateMem exConfig.OLDSYSCALL).s_status &&& exConfig.KUp ≠ 0 ∧
    (exTrapNucleus.stateMem exConfig.OLDSYSCALL).s_a0 = 1 ∧
    (exTrapNucleus.stateMem exConfig.OLDSYSCALL).s_v0 = 7 ∧
    exTrapNucleus.currentProcess = some 1 ∧
    ∃ n1, syscallHandler exConfig 5 exTrapNucleus =
        Flow.gone (Exit.loadState (n1.pcb 1).p_s) n1 ∧
      (n1.pcb 1).p_s.s_v0 = 0 := by
  refine ⟨by decide, by decide, by decide, rfl, _, rfl, ?_⟩
  decide

/-- C8 (amended): for every old syscall area taken in user mode with request code in 1..8,
`syscallHandler` is exactly `programTrapHandler` run after the entry statements and after
the old syscall area, its cause marked, has been copied into the old program trap area. If
the caller has no program trap handler it is terminated with its subtree: nothing is taken
from the free list, `processCount` decreases, the ready queue only loses processes and the
saved `v0` of the caller is the `v0` of the snapshot. If it has one, the trap is passed
up: the free list, `processCount` and the ready queue are unchanged, the saved state of
the caller is the registered handler context, and the `v0` of the snapshot is kept in the
registered old area. -/
theorem syscallHandler_user_mode (cfg : Config) (n : Nucleus) (p : Pid) (fuel : Nat)
    (hcur : n.currentProcess = some p)
    (huser : (n.stateMem cfg.OLDSYSCALL).s_status &&& cfg.KUp ≠ 0)
    (hcode : 0 < (n.stateMem cfg.OLDSYSCALL).s_a0 ∧ (n.stateMem cfg.OLDSYSCALL).s_a0 ≤ 8) :
    syscallHandler cfg fuel n =
      programTrapHandler cfg fuel (raiseReserved cfg (syscallEntry cfg n p)) ∧
    (raiseReserved cfg (syscallEntry cfg n p)).stateMem cfg.OLDTRAP =
      { n.stateMem cfg.OLDSYSCALL with
        s_cause := ((n.stateMem cfg.OLDSYSCALL).s_cause ||| (10 <<< 2)) % 2 ^ 32 } ∧
    (((n.pcb p).p_types 1).newState = NULL → ∀ F, SubtreeOf n p F → QueuesOk n →
      F.nodes.length + 1 ≤ fuel →
      ∃ n1, syscallHandler cfg fuel n = Flow.gone Exit.scheduler n1 ∧
        n.pcbFree <:+ n1.pcbFree ∧
        n1.processCount = n.processCount - (F.nodes.length + 1) ∧
        n1.readyQueue.Sublist n.readyQueue ∧
        (n1.pcb p).p_s.s_v0 = (n.stateMem cfg.OLDSYSCALL).s_v0) ∧
    (((n.pcb p).p_types 1).newState ≠ NULL →
      ∃ n1, syscallHandler cfg fuel n = Flow.gone (Exit.loadState (n1.pcb p).p_s) n1 ∧
        n1.pcbFree = n.pcbFree ∧ n1.processCount = n.processCount ∧
        n1.readyQueue = n.readyQueue ∧
        (n1.pcb p).p_s = n1.stateMem ((n.pcb p).p_types 1).newState ∧
        (n1.stateMem ((n.pcb p).p_types 1).oldState).s_v0 =
          (n.stateMem cfg.OLDSYSCALL).s_v0) := by
  have hms : (syscallEntry cfg n p).stateMem = n.stateMem := by
    simp [syscallEntry, Nucleus.setPcb]
  have e0 : syscallHandler cfg fuel n =
      programTrapHandler cfg fuel (raiseReserved cfg (syscallEntry cfg n p)) := by
    have hg := passUpOrDie_gone cfg fuel 1 cfg.OLDTRAP (raiseReserved cfg (syscallEntry cfg n p))
    simp only [syscallHandler, withCurrent, hcur, syscallBranch, hms, huser, hcode, ne_eq,
      not_false_eq_true, if_true, and_self]
    exact hg.andThen_eq _
  have hv : ((raiseReserved cfg (syscallEntry cfg n p)).pcb p).p_s.s_v0 =
      (n.stateMem cfg.OLDSYSCALL).s_v0 := by
    simp [raiseReserved, moveState, Nucleus.setState, syscallEntry, Nucleus.setPcb,
      state_t.s_v0]
  have hpcb : (raiseReserved cfg (syscallEntry cfg n p)).pcb = (syscallEntry cfg n p).pcb := rfl
  have hty : ((raiseReserved cfg (syscallEntry cfg n p)).pcb p).p_types = (n.pcb p).p_types := by
    simp [raiseReserved, moveState, Nucleus.setState, syscallEntry, Nucleus.setPcb]
  refine ⟨e0, ?_, ?_, ?_⟩
  · simp [raiseReserved, moveState, Nucleus.setState, syscallEntry, Nucleus.setPcb]
  · intro hnew F hs hq hf
    have hs1 : SubtreeOf (raiseReserved cfg (syscallEntry cfg n p)) p F :=
      { children := (syscallEntry_subtree cfg n p F hs).children
        links := (syscallEntry_subtree cfg n p F hs).links
        nodup := hs.nodup }
    have hq1 : QueuesOk (raiseReserved cfg (syscallEntry cfg n p)) :=
      (syscallEntry_queuesOk cfg n p hq).shrink (List.Sublist.refl _)
        (fun a => List.Sublist.refl _) (fun q => rfl) (Or.inl rfl)
    obtain ⟨n1, h1, post⟩ := terminateProcess_post cfg F _ p hs1 hq1 fuel hf
    refine ⟨{ n1 with currentProcess := none }, ?_, ?_, ?_, ?_, ?_⟩
    · rw [e0]
      have hc1 : (raiseReserved cfg (syscallEntry cfg n p)).currentProcess = some p := hcur
      simp [programTrapHandler, passUpOrDie, withCurrent, hc1, TRAPTYPES, hty, hnew,
        terminateProcessFlow, h1, Flow.andThen, scheduler]
    · exact post.free
    · show n1.processCount = _
      rw [post.count]
      simp [raiseReserved, moveState, Nucleus.setState, syscallEntry, Nucleus.setPcb]
    · exact post.readySub
    · show (n1.pcb p).p_s.s_v0 = _
      rw [post.saved, hv]
  · intro hnew
    have hc1 : (raiseReserved cfg (syscallEntry cfg n p)).currentProcess = some p := hcur
    refine ⟨(syscallHandler cfg fuel n).state, ?_, ?_, ?_, ?_, ?_, ?_⟩ <;>
      rw [e0] <;>
      simp [programTrapHandler, passUpOrDie, withCurrent, hc1, TRAPTYPES, hty, hnew,
        loadCurrent, loadState, Flow.state, Nucleus.setPcb, moveState, Nucleus.setState]
    all_goals
      simp [raiseReserved, moveState, Nucleus.setState, syscallEntry, Nucleus.setPcb,
        state_t.s_v0]

/-- C8 (amended) at the sample states: with a registered handler the trap is passed up,
without one process 1 is terminated with its two children. -/
theorem syscallHandler_user_mode_witness :
    (syscallHandler exConfig 3 exTrapNucleus =
      programTrapHandler exConfig 3
        (raiseReserved exConfig (syscallEntry exConfig exTrapNucleus 1))) ∧
    (∃ n1, syscallHandler exConfig 3 exTrapNucleus =
        Flow.gone (Exit.loadState (n1.pcb 1).p_s) n1 ∧
      n1.pcbFree = exTrapNucleus.pcbFree ∧ n1.processCount = exTrapNucleus.processCount ∧
      n1.readyQueue = exTrapNucleus.readyQueue ∧
      (n1.pcb 1).p_s = n1.stateMem ((exTrapNucleus.pcb 1).p_types 1).newState ∧
      (n1.stateMem ((exTrapNucleus.pcb 1).p_types 1).oldState).s_v0 =
        (exTrapNucleus.stateMem exConfig.OLDSYSCALL).s_v0) ∧
    (∃ n1, syscallHandler exConfig 3 exUserNucleus = Flow.gone Exit.scheduler n1 ∧
      exUserNucleus.pcbFree <:+ n1.pcbFree ∧
      n1.processCount = exUserNucleus.processCount - (exForest.nodes.length + 1) ∧
      n1.readyQueue.Sublist exUserNucleus.readyQueue ∧
      (n1.pcb 1).p_s.s_v0 = (exUserNucleus.stateMem exConfig.OLDSYSCALL).s_v0) :=
  ⟨(syscallHandler_user_mode exConfig exTrapNucleus 1 3 rfl (by decide) (by decide)).1,
    (syscallHandler_user_mode exConfig exTrapNucleus 1 3 rfl (by decide) (by decide)).2.2.2
      (by decide),
    (syscallHandler_user_mode exConfig exUserNucleus 1 3 rfl (by decide) (by decide)).2.2.1
      rfl exForest
      ⟨exNucleus_subtree.children, exNucleus_subtree.links, exNucleus_subtree.nodup⟩
      ⟨exNucleus_queuesOk.readyNodup, exNucleus_queuesOk.aslNodup,
        exNucleus_queuesOk.readySem, exNucleus_queuesOk.readyCur, exNucleus_queuesOk.aslSem,
        exNucleus_queuesOk.aslCur⟩ (by decide)⟩

/-- C9: with a current process, in user mode and in kernel mode alike, the entry
statements leave the old syscall area as it was; when the request code is outside 1..8 the
branch of `syscallHandler` runs no handler and returns, and `syscallHandler` is
`passUpOrDie(2, oldSys)` on the state left by the entry statements; when the code is in
1..8 the branch never returns, so the final `passUpOrDie(2, oldSys)` is not run and
`syscallHandler` is that branch alone: `programTrapHandler` in user mode, the switch over
the eight handlers in kernel mode. -/
theorem syscallHandler_passUp_outside (cfg : Config) (n : Nucleus) (p : Pid) (fuel : Nat)
    (hcur : n.currentProcess = some p) :
    (syscallEntry cfg n p).stateMem = n.stateMem ∧
    (¬ (0 < (n.stateMem cfg.OLDSYSCALL).s_a0 ∧ (n.stateMem cfg.OLDSYSCALL).s_a0 ≤ 8) →
      syscallBranch cfg fuel p (syscallEntry cfg n p) = Flow.returned (syscallEntry cfg n p) ∧
      syscallHandler cfg fuel n =
        passUpOrDie cfg fuel 2 cfg.OLDSYSCALL (syscallEntry cfg n p)) ∧
    (0 < (n.stateMem cfg.OLDSYSCALL).s_a0 ∧ (n.stateMem cfg.OLDSYSCALL).s_a0 ≤ 8 →
      (syscallBranch cfg fuel p (syscallEntry cfg n p)).Gone ∧
      syscallHandler cfg fuel n = syscallBranch cfg fuel p (syscallEntry cfg n p) ∧
      ((n.stateMem cfg.OLDSYSCALL).s_status &&& cfg.KUp ≠ 0 →
        syscallHandler cfg fuel n =
          programTrapHandler cfg fuel (raiseReserved cfg (syscallEntry cfg n p))) ∧
      ((n.stateMem cfg.OLDSYSCALL).s_status &&& cfg.KUp = 0 →
        syscallHandler cfg fuel n = syscallSwitch cfg fuel p (syscallEntry cfg n p))) := by
  have hms : (syscallEntry cfg n p).stateMem = n.stateMem := by
    simp [syscallEntry, Nucleus.setPcb]
  refine ⟨hms, ?_, ?_⟩
  · intro h
    have hb : syscallBranch cfg fuel p (syscallEntry cfg n p) =
        Flow.returned (syscallEntry cfg n p) := by
      simp only [syscallBranch, hms, h, if_false, ite_self]
    refine ⟨hb, ?_⟩
    simp only [syscallHandler, withCurrent, hcur, hb, Flow.andThen]
  · intro h
    have hg : (syscallBranch cfg fuel p (syscallEntry cfg n p)).Gone := by
      simp only [syscallBranch, hms, h, if_true, and_self]
      split_ifs
      · exact passUpOrDie_gone _ _ _ _ _
      · exact syscallSwitch_gone cfg fuel p _ (by rw [hms]; exact h)
    have he : syscallHandler cfg fuel n = syscallBranch cfg fuel p (syscallEntry cfg n p) := by
      simp only [syscallHandler, withCurrent, hcur]
      exact hg.andThen_eq _
    refine ⟨hg, he, ?_, ?_⟩
    · intro hu
      rw [he]
      simp only [syscallBranch, hms, h, hu, ne_eq, not_false_eq_true, if_true, and_self]
    · intro hk
      rw [he]
      simp only [syscallBranch, hms, h, hk, ne_eq, not_true_eq_false, if_false, if_true,
        and_self]

/-- C9 at the sample states: code 1 in user mode, and code 0. -/
theorem syscallHandler_passUp_outside_witness :
    (syscallBranch exConfig 3 1 (syscallEntry exConfig exTrapNucleus 1)).Gone ∧
    syscallHandler exConfig 3 exTrapNucleus =
      syscallBranch exConfig 3 1 (syscallEntry exConfig exTrapNucleus 1) ∧
    (syscallBranch exConfig 3 1 (syscallEntry exConfig exNucleus 1) =
        Flow.returned (syscallEntry exConfig exNucleus 1) ∧
      syscallHandler exConfig 3 exNucleus =
        passUpOrDie exConfig 3 2 exConfig.OLDSYSCALL (syscallEntry exConfig exNucleus 1)) :=
  ⟨((syscallHandler_passUp_outside exConfig exTrapNucleus 1 3 rfl).2.2 (by decide)).1,
    ((syscallHandler_passUp_outside exConfig exTrapNucleus 1 3 rfl).2.2 (by decide)).2.1,
    (syscallHandler_passUp_outside exConfig exNucleus 1 3 rfl).2.1 (by decide)⟩

/-- Two cells of `deviceList` with the same device number in consecutive rows have
different addresses, as long as a row is shorter than the address space. -/
theorem deviceListAddr_rows_differ (cfg : Config) (r dnum : Int)
    (hd : 0 < cfg.DEVICENUM ∧ cfg.DEVICENUM < 2 ^ 30) :
    deviceListAddr cfg (r + 1) dnum ≠ deviceListAddr cfg r dnum := by
  unfold deviceListAddr toAddr
  obtain ⟨h1, h2⟩ := hd
  have e : (cfg.deviceList : Int) + 4 * ((r + 1) * cfg.DEVICENUM + dnum) =
      (cfg.deviceList + 4 * (r * cfg.DEVICENUM + dnum)) + 4 * cfg.DEVICENUM := by ring
  rw [e]
  generalize (cfg.deviceList : Int) + 4 * (r * cfg.DEVICENUM + dnum) = x
  have h3 : (0 : Int) < cfg.DEVICENUM := by exact_mod_cast h1
  have h4 : (cfg.DEVICENUM : Int) < 2 ^ 30 := by exact_mod_cast h2
  intro h
  have := congrArg (fun k : Nat => (k : Int)) h
  simp only at this
  rw [Int.toNat_of_nonneg (Int.emod_nonneg _ (by norm_num)),
    Int.toNat_of_nonneg (Int.emod_nonneg _ (by norm_num))] at this
  omega

/-- SYS8 changes the counter and the blocked queue of the selected device semaphore only.
-/
theorem waitForIO_frame (cfg : Config) (intlNo dnum flag : Int) (n : Nucleus) (b : Addr)
    (hb : b ≠ deviceListAddr cfg (deviceRow cfg intlNo flag) dnum) :
    ( waitForIO cfg intlNo dnum flag n).state.intMem b = n.intMem b ∧
    ( waitForIO cfg intlNo dnum flag n).state.asl b = n.asl b := by
  by_cases h : n.intMem (deviceListAddr cfg (deviceRow cfg intlNo flag) dnum) - 1 < 0 <;>
    cases hc : n.currentProcess <;>
    simp [ waitForIO, Nucleus.setInt, h, withCurrent, hc, Flow.andThen, scheduler,
      loadCurrent, loadState, Flow.state, Nucleus.setPcb, insertBlocked, hb]

/-- C12: in `waitForIO` the row selected for the terminal line `TERMINT` is `TERMINT - 2`
with the read flag zero (write) and `TERMINT - 3` with the read flag non-zero (read);
every other line `L` selects row `L - 3`. For the lines 3 to `TERMINT` the rows are in 0
to `TERMINT - 2`, and two pairs of line and flag that select the same row have the same
line and, on the terminal line, the same sub-device. With rows of at least one and fewer
than `2 ^ 30` devices, the terminal write and the terminal read semaphore of one device
number are different cells, and a wait on either of them leaves the counter and the
blocked queue of the other as they were. -/
theorem waitForIO_terminal_rows (cfg : Config) (dnum : Int) (n : Nucleus)
    (hd : 0 < cfg.DEVICENUM ∧ cfg.DEVICENUM < 2 ^ 30) :
    (∀ flag, flag = 0 → deviceRow cfg cfg.TERMINT flag = cfg.TERMINT - 2) ∧
    (∀ flag, flag ≠ 0 → deviceRow cfg cfg.TERMINT flag = cfg.TERMINT - 3) ∧
    (∀ L flag, L ≠ cfg.TERMINT → deviceRow cfg L flag = L - 3) ∧
    (∀ L flag, 3 ≤ L → L ≤ cfg.TERMINT →
      0 ≤ deviceRow cfg L flag ∧ deviceRow cfg L flag ≤ cfg.TERMINT - 2) ∧
    (∀ L1 f1 L2 f2, 3 ≤ L1 → L1 ≤ cfg.TERMINT → 3 ≤ L2 → L2 ≤ cfg.TERMINT →
      deviceRow cfg L1 f1 = deviceRow cfg L2 f2 →
      L1 = L2 ∧ (L1 = cfg.TERMINT → (f1 = 0 ↔ f2 = 0))) ∧
    (∀ wr rd, wr = 0 → rd ≠ 0 →
      deviceListAddr cfg (deviceRow cfg cfg.TERMINT wr) dnum ≠
        deviceListAddr cfg (deviceRow cfg cfg.TERMINT rd) dnum ∧
      ( waitForIO cfg cfg.TERMINT dnum wr n).state.intMem
          (deviceListAddr cfg (deviceRow cfg cfg.TERMINT rd) dnum) =
        n.intMem (deviceListAddr cfg (deviceRow cfg cfg.TERMINT rd) dnum) ∧
      ( waitForIO cfg cfg.TERMINT dnum wr n).state.asl
          (deviceListAddr cfg (deviceRow cfg cfg.TERMINT rd) dnum) =
        n.asl (deviceListAddr cfg (deviceRow cfg cfg.TERMINT rd) dnum) ∧
      ( waitForIO cfg cfg.TERMINT dnum rd n).state.intMem
          (deviceListAddr cfg (deviceRow cfg cfg.TERMINT wr) dnum) =
        n.intMem (deviceListAddr cfg (deviceRow cfg cfg.TERMINT wr) dnum) ∧
      ( waitForIO cfg cfg.TERMINT dnum rd n).state.asl
          (deviceListAddr cfg (deviceRow cfg cfg.TERMINT wr) dnum) =
        n.asl (deviceListAddr cfg (deviceRow cfg cfg.TERMINT wr) dnum)) := by
  have hw : ∀ flag, flag = 0 → deviceRow cfg cfg.TERMINT flag = cfg.TERMINT - 2 := by
    intro flag h; simp [deviceRow, h]
  have hr : ∀ flag, flag ≠ 0 → deviceRow cfg cfg.TERMINT flag = cfg.TERMINT - 3 := by
    intro flag h; simp [deviceRow, h]
  have hl : ∀ L flag, L ≠ cfg.TERMINT → deviceRow cfg L flag = L - 3 := by
    intro L flag h; simp [deviceRow, h]
  refine ⟨hw, hr, hl, ?_, ?_, ?_⟩
  · intro L flag h1 h2
    unfold deviceRow
    split_ifs <;> omega
  · intro L1 f1 L2 f2 h1 h2 h3 h4
    unfold deviceRow
    split_ifs <;> intro h <;> refine ⟨by omega, ?_⟩ <;> intro h5 <;> (simp_all; try omega)
  · intro wr rd hwr hrd
    have hne : deviceListAddr cfg (deviceRow cfg cfg.TERMINT wr) dnum ≠
        deviceListAddr cfg (deviceRow cfg cfg.TERMINT rd) dnum := by
      rw [hw wr hwr, hr rd hrd]
      have := deviceListAddr_rows_differ cfg (cfg.TERMINT - 3) dnum hd
      have e : cfg.TERMINT - 3 + 1 = cfg.TERMINT - 2 := by ring
      rwa [e] at this
    exact ⟨hne, (waitForIO_frame cfg _ dnum wr n _ hne.symm).1,
      (waitForIO_frame cfg _ dnum wr n _ hne.symm).2,
      (waitForIO_frame cfg _ dnum rd n _ hne).1,
      (waitForIO_frame cfg _ dnum rd n _ hne).2⟩

/-- C12 at the sample configuration, whose terminal line is 7 and whose rows hold 8
devices: device 2 writes on row 5 and reads on row 4, and a wait on one of the two
semaphores leaves the other alone. -/
theorem waitForIO_terminal_rows_witness :
    deviceRow exConfig exConfig.TERMINT 0 = 5 ∧ deviceRow exConfig exConfig.TERMINT 1 = 4 ∧
    deviceListAddr exConfig (deviceRow exConfig exConfig.TERMINT 0) 2 ≠
      deviceListAddr exConfig (deviceRow exConfig exConfig.TERMINT 1) 2 ∧
    ( waitForIO exConfig exConfig.TERMINT 2 0 exNucleus).state.intMem
        (deviceListAddr exConfig (deviceRow exConfig exConfig.TERMINT 1) 2) =
      exNucleus.intMem (deviceListAddr exConfig (deviceRow exConfig exConfig.TERMINT 1) 2) ∧
    ( waitForIO exConfig exConfig.TERMINT 2 0 exNucleus).state.asl
        (deviceListAddr exConfig (deviceRow exConfig exConfig.TERMINT 1) 2) =
      exNucleus.asl (deviceListAddr exConfig (deviceRow exConfig exConfig.TERMINT 1) 2) ∧
    ( waitForIO exConfig exConfig.TERMINT 2 1 exNucleus).state.intMem
        (deviceListAddr exConfig (deviceRow exConfig exConfig.TERMINT 0) 2) =
      exNucleus.intMem (deviceListAddr exConfig (deviceRow exConfig exConfig.TERMINT 0) 2) ∧
    ( waitForIO exConfig exConfig.TERMINT 2 1 exNucleus).state.asl
        (deviceListAddr exConfig (deviceRow exConfig exConfig.TERMINT 0) 2) =
      exNucleus.asl (deviceListAddr exConfig (deviceRow exConfig exConfig.TERMINT 0) 2) :=
  ⟨(waitForIO_terminal_rows exConfig 2 exNucleus (by decide)).1 0 rfl,
    (waitForIO_terminal_rows exConfig 2 exNucleus (by decide)).2.1 1 (by decide),
    (waitForIO_terminal_rows exConfig 2 exNucleus (by decide)).2.2.2.2.2 0 1 rfl (by decide)⟩

/-! ### Claim C13: termination of a process blocked on a device semaphore -/

/-- The sample state with a process blocked on the first device semaphore keeps the queue
discipline. -/
theorem exDevNucleus_queuesOk : QueuesOk exDevNucleus := by
  constructor
  · simp [exDevNucleus]
  · intro a; simp only [exDevNucleus]; split_ifs <;> simp
  · intro q hq
    have : q = 2 := by simpa [exDevNucleus] using hq
    subst this; rfl
  · intro q hq
    have : q = 2 := by simpa [exDevNucleus] using hq
    subst this; simp [exDevNucleus]
  · intro a q hq
    by_cases ha : a = 5000
    · subst ha
      have : q = 3 := by simpa [exDevNucleus] using hq
      subst this; simp [exDevNucleus, exPcb, NULL]
    · simp [exDevNucleus, ha] at hq
  · intro a q hq
    by_cases ha : a = 5000
    · subst ha
      have : q = 3 := by simpa [exDevNucleus] using hq
      subst this; simp [exDevNucleus]
    · simp [exDevNucleus, ha] at hq

/-- C13 (the code at the failing input): in the sample state, which keeps the queue
discipline, process 3 is not the current process and is blocked on the first device
semaphore `deviceList[0][0]`, at address 5000, whose counter is -1, and `softBlockCount`
is 1. `terminateProcess(3)` returns and removes process 3 from that queue, but it adds one
to the counter of the device semaphore, which becomes 0, and leaves `softBlockCount` at 1:
the strict comparison with the address of `deviceList[0][0]` takes the first cell for an
ordinary semaphore. -/
theorem terminateProcess_first_device_cell :
    QueuesOk exDevNucleus ∧ deviceListAddr exConfig 0 0 = 5000 ∧
    (exDevNucleus.pcb 3).p_semAdd = 5000 ∧ exDevNucleus.asl 5000 = [3] ∧
    exDevNucleus.currentProcess ≠ some 3 ∧
    exDevNucleus.intMem 5000 = -1 ∧ exDevNucleus.softBlockCount = 1 ∧
    ∃ n1, terminateProcess exConfig 1 exDevNucleus 3 = some n1 ∧
      n1.asl 5000 = [] ∧ n1.intMem 5000 = 0 ∧ n1.softBlockCount = 1 := by
  refine ⟨exDevNucleus_queuesOk, by decide, rfl, rfl, by decide, rfl, rfl, _, rfl, ?_, ?_, ?_⟩ <;>
    decide

/-! ### Claim C14: SYS7 is SYS4 on the clock counter -/

/-- C14: for every nucleus state, `waitForClock` produces the same result as `passeren`
applied to the address of `clockTimer` followed by adding one to `softBlockCount` exactly
when the wait blocks: the same exit and the same resulting state. When it blocks the
current process `p`, that state has `p_semAdd` of `p` equal to the address of the clock
counter, `p` appended to the blocked queue of the clock semaphore, `p_CPUTime` of `p`
grown by `endTOD - startTOD` (as a 32-bit `cpu_t`), `softBlockCount` one higher, the
counter decremented and `currentProcess` empty. -/
theorem waitForClock_is_passeren_on_clock (cfg : Config) (n : Nucleus) :
    waitForClock cfg n = waitForClockSpec cfg n ∧
    ∀ p, n.currentProcess = some p → wrap32 (n.intMem cfg.clockTimer - 1) < 0 →
      ∃ n1, waitForClock cfg n = Flow.gone Exit.scheduler n1 ∧
        (n1.pcb p).p_semAdd = cfg.clockTimer ∧
        n1.asl cfg.clockTimer = n.asl cfg.clockTimer ++ [p] ∧
        (n1.pcb p).p_CPUTime = wrap32 ((n.pcb p).p_CPUTime + (n.TOD - n.startTOD)) ∧
        n1.softBlockCount = n.softBlockCount + 1 ∧
        n1.intMem cfg.clockTimer = wrap32 (n.intMem cfg.clockTimer - 1) ∧
        n1.currentProcess = none := by
  constructor
  · by_cases h : wrap32 (n.intMem cfg.clockTimer - 1) < 0
    · cases hc : n.currentProcess with
      | none =>
        simp [waitForClock, waitForClockSpec, passeren, Nucleus.setInt, h, withCurrent, hc,
          Flow.andThen]
      | some p =>
        simp [waitForClock, waitForClockSpec, passeren, Nucleus.setInt, h, withCurrent, hc,
          Flow.andThen, scheduler, insertBlocked, Nucleus.setPcb]
    · cases hc : n.currentProcess with
      | none =>
        simp [waitForClock, waitForClockSpec, passeren, Nucleus.setInt, h, hc,
          Flow.andThen, loadCurrent]
      | some p =>
        simp [waitForClock, waitForClockSpec, passeren, Nucleus.setInt, h, hc,
          Flow.andThen, loadCurrent, loadState]
  · intro p hc h
    refine ⟨(waitForClock cfg n).state, ?_, ?_, ?_, ?_, ?_, ?_, ?_⟩ <;>
      simp [waitForClock, Nucleus.setInt, h, withCurrent, hc, Flow.andThen, scheduler,
        insertBlocked, Nucleus.setPcb, Flow.state]

/-- C14 at the sample state, whose clock counter is 0: the two agree, and process 1 is
blocked on the clock semaphore. -/
theorem waitForClock_is_passeren_on_clock_witness :
    waitForClock exConfig exNucleus = waitForClockSpec exConfig exNucleus ∧
    ∃ n1, waitForClock exConfig exNucleus = Flow.gone Exit.scheduler n1 ∧
      (n1.pcb 1).p_semAdd = exConfig.clockTimer ∧
      n1.asl exConfig.clockTimer = exNucleus.asl exConfig.clockTimer ++ [1] ∧
      (n1.pcb 1).p_CPUTime =
        wrap32 ((exNucleus.pcb 1).p_CPUTime + (exNucleus.TOD - exNucleus.startTOD)) ∧
      n1.softBlockCount = exNucleus.softBlockCount + 1 ∧
      n1.intMem exConfig.clockTimer = wrap32 (exNucleus.intMem exConfig.clockTimer - 1) ∧
      n1.currentProcess = none :=
  ⟨(waitForClock_is_passeren_on_clock exConfig exNucleus).1,
    (waitForClock_is_passeren_on_clock exConfig exNucleus).2 1 rfl (by decide)⟩

/-! ### Claim C16: the cause word of a privileged request in user mode -/

/-- C16 (the code at the failing input): the old syscall area holds a breakpoint
(exception code 9) taken in user mode with request code 1. `syscallHandler` hands the trap
to `programTrapHandler` after rewriting the cause word with a bitwise or: the cause word
copied into the program trap area is 44, whose exception code field is 11, not the
reserved-instruction code 10; the bits outside the field are unchanged. -/
theorem raiseReserved_breakpoint_code :
    (exBreakNucleus.stateMem exConfig.OLDSYSCALL).s_status &&& exConfig.KUp ≠ 0 ∧
    (exBreakNucleus.stateMem exConfig.OLDSYSCALL).s_a0 = 1 ∧
    excCode (exBreakNucleus.stateMem exConfig.OLDSYSCALL).s_cause = 9 ∧
    syscallHandler exConfig 3 exBreakNucleus =
      programTrapHandler exConfig 3
        (raiseReserved exConfig (syscallEntry exConfig exBreakNucleus 1)) ∧
    ((raiseReserved exConfig (syscallEntry exConfig exBreakNucleus 1)).stateMem
      exConfig.OLDTRAP).s_cause = 44 ∧
    excCode ((raiseReserved exConfig (syscallEntry exConfig exBreakNucleus 1)).stateMem
      exConfig.OLDTRAP).s_cause = 11 ∧
    causeRest ((raiseReserved exConfig (syscallEntry exConfig exBreakNucleus 1)).stateMem
      exConfig.OLDTRAP).s_cause =
      causeRest (exBreakNucleus.stateMem exConfig.OLDSYSCALL).s_cause := by
  refine ⟨by decide, by decide, by decide, rfl, by decide, by decide, by decide⟩

/-! ### Claim C17: when SYS3 wakes a waiter -/

/-- Counter and blocked queue agree for every semaphore of the sample state. -/
theorem exNucleus_semConsistent : SemConsistent exNucleus := by
  intro a
  by_cases h : a = 100
  · subst h; simp [exNucleus]
  · simp [exNucleus, h]

/-- C17 (as stated, refuted): in the sample state, in which counters and blocked queues
agree, the counter at address 200 is 0, so it is `<= 0` before the increment; `verhogen`
on it raises the counter to 1 and dequeues nobody: the ready queue and the (empty) blocked
queue are unchanged. -/
theorem verhogen_zero_counter_wakes_nobody :
    SemConsistent exNucleus ∧ exNucleus.currentProcess = some 1 ∧
    exNucleus.intMem 200 = 0 ∧
    ∃ n1, verhogen 200 exNucleus = Flow.gone (Exit.loadState (exNucleus.pcb 1).p_s) n1 ∧
      n1.intMem 200 = 1 ∧ n1.readyQueue = exNucleus.readyQueue ∧
      n1.asl 200 = exNucleus.asl 200 ∧ exNucleus.asl 200 = [] := by
  refine ⟨exNucleus_semConsistent, rfl, rfl, _, rfl, ?_, rfl, rfl, rfl⟩
  decide

/-- C17 (amended): in every state where counter and blocked queue of each semaphore agree
(a negative counter has as many waiters as its magnitude, a non-negative counter has
none), `verhogen` run by the current process dequeues a waiter and makes it ready exactly
when the counter was `< 0` before the increment: then the earliest waiter leaves the
blocked queue, is appended to the ready queue and has its `p_semAdd` cleared; when the
counter was `>= 0` no blocked queue, the ready queue and no pcb change. In both cases the
caller is resumed. -/
theorem verhogen_wakes_iff_negative (semaddr : Addr) (n : Nucleus) (p : Pid)
    (hc : SemConsistent n) (hcur : n.currentProcess = some p) :
    (n.intMem semaddr < 0 →
      ∃ w ws n1, n.asl semaddr = w :: ws ∧
        verhogen semaddr n = Flow.gone (Exit.loadState (n.pcb p).p_s) n1 ∧
        n1.asl semaddr = ws ∧ n1.readyQueue = n.readyQueue ++ [w] ∧
        (n1.pcb w).p_semAdd = NULL) ∧
    (0 ≤ n.intMem semaddr →
      ∃ n1, verhogen semaddr n = Flow.gone (Exit.loadState (n.pcb p).p_s) n1 ∧
        n1.asl = n.asl ∧ n1.readyQueue = n.readyQueue ∧ n1.pcb = n.pcb) := by
  constructor
  · intro h
    have hl := (hc semaddr).1 h
    cases hq : n.asl semaddr with
    | nil => rw [hq] at hl; simp at hl; omega
    | cons w ws =>
      refine ⟨w, ws, (verhogen semaddr n).state, rfl, ?_, ?_, ?_, ?_⟩ <;>
        simp [verhogen, removeBlocked, Nucleus.setInt, hq, loadCurrent, hcur, loadState,
          Flow.state, Nucleus.setPcb, insertProcQ, Function.update_apply]
      split_ifs <;> simp_all
  · intro h
    have hq := (hc semaddr).2 h
    refine ⟨(verhogen semaddr n).state, ?_, ?_, ?_, ?_⟩ <;>
      simp [verhogen, removeBlocked, Nucleus.setInt, hq, loadCurrent, hcur, loadState,
        Flow.state]

/-- C17 (amended) at the sample state: the counter at address 100 is -1 and its waiter is
woken; the counter at address 200 is 0 and nobody is. -/
theorem verhogen_wakes_iff_negative_witness :
    (exNucleus.intMem 100 < 0 →
      ∃ w ws n1, exNucleus.asl 100 = w :: ws ∧
        verhogen 100 exNucleus = Flow.gone (Exit.loadState (exNucleus.pcb 1).p_s) n1 ∧
        n1.asl 100 = ws ∧ n1.readyQueue = exNucleus.readyQueue ++ [w] ∧
        (n1.pcb w).p_semAdd = NULL) ∧
    (0 ≤ exNucleus.intMem 200 →
      ∃ n1, verhogen 200 exNucleus = Flow.gone (Exit.loadState (exNucleus.pcb 1).p_s) n1 ∧
        n1.asl = exNucleus.asl ∧ n1.readyQueue = exNucleus.readyQueue ∧
        n1.pcb = exNucleus.pcb) :=
  ⟨(verhogen_wakes_iff_negative 100 exNucleus 1 exNucleus_semConsistent rfl).1,
    (verhogen_wakes_iff_negative 200 exNucleus 1 exNucleus_semConsistent rfl).2⟩

/-! ### Claim C18: the soft-blocked counter -/

/-- C18 (the code at the failing inputs): in each of the two sample states
`softBlockCount` is 1 and equals the number of processes queued on the pseudo-clock
semaphore or on a device semaphore: process 3, a child of the running process 1, is
blocked on the first device semaphore `deviceList[0][0]` (first state) or on the
pseudo-clock semaphore (second state). `terminateProcess(1)` returns with no process left
in any of these queues, but `softBlockCount` is still 1, and the counter of the semaphore
has been raised to 0. -/
theorem terminateProcess_softBlockCount_drifts :
    (exDevNucleus.currentProcess = some 1 ∧
      (exDevNucleus.softBlockCount : Int) = softBlockedQueued exConfig exDevNucleus ∧
      ∃ n1, terminateProcess exConfig 3 exDevNucleus 1 = some n1 ∧
        n1.softBlockCount = 1 ∧ softBlockedQueued exConfig n1 = 0 ∧
        n1.intMem (deviceListAddr exConfig 0 0) = 0) ∧
    (exClockNucleus.currentProcess = some 1 ∧
      (exClockNucleus.softBlockCount : Int) = softBlockedQueued exConfig exClockNucleus ∧
      ∃ n1, terminateProcess exConfig 3 exClockNucleus 1 = some n1 ∧
        n1.softBlockCount = 1 ∧ softBlockedQueued exConfig n1 = 0 ∧
        n1.intMem exConfig.clockTimer = 0) := by
  refine ⟨⟨rfl, by decide, _, rfl, ?_, ?_, ?_⟩, ⟨rfl, by decide, _, rfl, ?_, ?_, ?_⟩⟩ <;> decide

/-! ### Claim C19: a negative counter counts its queue -/

/-- Removing the trees rooted in `S` from a represented forest gives a forest represented
by every pcb table whose child lists are the old ones without the members of `S`. -/
theorem Represents.remove {pcb pcb1 : Pid → pcb_t} (S : List Pid) (F : Forest)
    (hr : Represents pcb F)
    (hc : ∀ q, q ∉ S → (pcb1 q).p_child = (pcb q).p_child.filter (fun x => decide (x ∉ S))) :
    Represents pcb1 (F.remove S) ∧
      (F.remove S).roots = F.roots.filter (fun x => decide (x ∉ S)) ∧
      (F.remove S).nodes.Sublist F.nodes := by
  induction F with
  | nil => exact ⟨trivial, rfl, List.Sublist.refl _⟩
  | cons c kids rest ihk ihr =>
    obtain ⟨h1, h2, h3⟩ := hr
    obtain ⟨k1, k2, k3⟩ := ihk h2
    obtain ⟨r1, r2, r3⟩ := ihr h3
    by_cases hcS : c ∈ S
    · simp only [Forest.remove, hcS, if_true]
      refine ⟨r1, ?_, ?_⟩
      · rw [r2]; simp [Forest.roots, hcS]
      · simp only [Forest.nodes]
        exact (r3.trans (List.sublist_append_right _ _)).cons _
    · simp only [Forest.remove, hcS, if_false]
      refine ⟨⟨?_, k1, r1⟩, ?_, ?_⟩
      · rw [hc c hcS, h1, k2]
      · simp [Forest.roots, hcS, r2]
      · simp only [Forest.nodes]
        exact (List.Sublist.append k3 r3).cons₂ _

/-- Adding a leaf below a node keeps the roots of a forest. -/
theorem Forest.roots_addLeaf (cur q : Pid) (F : Forest) :
    (F.addLeaf cur q).roots = F.roots := by
  induction F with
  | nil => rfl
  | cons c kids rest _ ihr => simp only [Forest.addLeaf, Forest.roots, ihr]

/-- The forest with the leaf `q` added below `cur` is represented once `q` is linked as
the first child of `cur`. -/
theorem Represents.addLeaf {pcb pcb1 : Pid → pcb_t} (cur q : Pid) (F : Forest)
    (hr : Represents pcb F) (hq : q ∉ F.nodes)
    (hcq : (pcb1 q).p_child = [])
    (hcc : (pcb1 cur).p_child = q :: (pcb cur).p_child)
    (hco : ∀ x, x ≠ q → x ≠ cur → (pcb1 x).p_child = (pcb x).p_child) :
    Represents pcb1 (F.addLeaf cur q) := by
  induction F with
  | nil => trivial
  | cons c kids rest ihk ihr =>
    obtain ⟨h1, h2, h3⟩ := hr
    simp only [Forest.nodes, List.mem_cons, List.mem_append, not_or] at hq
    obtain ⟨hqc, hqk, hqr⟩ := hq
    by_cases hc : c = cur
    · subst hc
      simp only [Forest.addLeaf, if_true, Represents, Forest.roots, Forest.roots_addLeaf]
      exact ⟨by rw [hcc, h1], ⟨hcq, trivial, ihk h2 hqk⟩, ihr h3 hqr⟩
    · simp only [Forest.addLeaf, hc, if_false, Represents, Forest.roots_addLeaf]
      exact ⟨by rw [hco c (fun e => hqc e.symm) hc, h1], ihk h2 hqk, ihr h3 hqr⟩

end Kaya
